import Mathlib

/-
  Verification development for the SignalDesk worker (TypeScript).
  Shallow embedding of the evaluation / retrieval-scoring subsystem:
  src/utils.ts, src/ai.ts, src/vectorize.ts, src/db.ts, src/handlers.ts.
  External capabilities (model inference, embedding, vector index, the
  platform JSON parser, Date.parse, crypto.randomUUID) are modelled as
  oracle parameters; the D1 store is modelled as explicit state.
  A thrown / rejected promise that no code on the path catches is
  modelled as Except.error.
-/

deriving instance DecidableEq for Except

namespace SignalDesk

/-! ## JS string helpers (trim, toLowerCase, whitespace collapsing) -/

/-- JS whitespace class (the ASCII part of the regex class used by trim and
collapse operations in utils.ts). -/
def isJsWs (c : Char) : Bool :=
  c = ' ' || c = '\t' || c = '\n' || c = '\r' || c = '\x0b' || c = '\x0c'

/-- Trim on char lists: drop leading and trailing JS whitespace. -/
def jsTrimList (cs : List Char) : List Char :=
  ((cs.dropWhile isJsWs).reverse.dropWhile isJsWs).reverse

/-- String.prototype.trim of utils.ts normalizeText and the cleanup pipeline. -/
def jsTrim (s : String) : String :=
  String.mk (jsTrimList s.toList)

/-- One pass of replace of whitespace runs by a single space
(the global regex replace in normalizeSource). -/
def collapseWsAux : Bool → List Char → List Char
  | _, [] => []
  | inRun, c :: cs =>
    if isJsWs c then
      if inRun then collapseWsAux true cs else ' ' :: collapseWsAux true cs
    else c :: collapseWsAux false cs

def collapseWs (cs : List Char) : List Char :=
  collapseWsAux false cs

def jsToLower (s : String) : String :=
  String.mk (s.toList.map Char.toLower)

/-! ## Constants (src/constants.ts) -/

def THEME_TAXONOMY : List String :=
  ["Docs confusion", "Billing/pricing", "Performance/latency",
   "Reliability/outage", "Authentication/access", "Dashboard UX",
   "API ergonomics", "Limits/quotas", "Feature request"]

def ALLOWED_SOURCES : List String :=
  ["app", "email", "slack", "intercom", "web", "api", "golden", "discord",
   "twitter", "github", "github issue", "community forum", "salesforce",
   "salesforce note", "hacker news", "zendesk", "stackoverflow",
   "stack overflow", "reddit", "g2 crowd", "spambot"]

def MAX_TITLE_CHARS : Nat := 200
def MAX_BODY_CHARS : Nat := 8000
def MAX_TIER_CHARS : Nat := 50

def ANALYSIS_MODEL : String := "@cf/meta/llama-3.1-8b-instruct"
def PROMPT_VERSION : String := "v1"

/-- utils.ts toSeverity: severity bucket derived from the urgency score. -/
def toSeverity (urgencyScore : Int) : String :=
  if urgencyScore ≥ 70 then "high"
  else if urgencyScore ≥ 40 then "medium"
  else "low"

/-- utils.ts themeIsValid: THEME_TAXONOMY.includes(theme). -/
def themeIsValid (theme : String) : Bool :=
  THEME_TAXONOMY.contains theme

/-- utils.ts normalizeText on an already-string value. -/
def normalizeText (value : String) : String :=
  jsTrim value

/-- utils.ts normalizeSource on a string value:
trim, lower-case, collapse whitespace runs to single spaces. -/
def normalizeSource (value : String) : String :=
  String.mk (collapseWs (jsToLower (jsTrim value)).toList)

/-! ## JSON values and JS number coercion -/

/-- A parsed JSON value (output of the platform JSON.parse, which the
embedding treats as an oracle producing these values). -/
inductive Json where
  | null : Json
  | bool (b : Bool) : Json
  | num (q : ℚ) : Json
  | str (s : String) : Json
  | arr (elems : List Json) : Json
  | obj (fields : List (String × Json)) : Json

def lookupField : List (String × Json) → String → Option Json
  | [], _ => none
  | (k, v) :: rest, key => if k = key then some v else lookupField rest key

def Json.getField (j : Json) (key : String) : Option Json :=
  match j with
  | .obj fields => lookupField fields key
  | _ => none

def digitsVal (cs : List Char) : Nat :=
  cs.foldl (fun a c => a * 10 + (c.toNat - '0'.toNat)) 0

/-- Decimal number body: digits with an optional fractional part
(the subset of the JS numeric-string grammar that can occur here;
exponent and hex forms are not modelled). none encodes NaN. -/
def parseUnsignedDec (cs : List Char) : Option ℚ :=
  let ip := cs.takeWhile Char.isDigit
  let rest := cs.dropWhile Char.isDigit
  match rest with
  | [] => if ip.isEmpty then none else some (digitsVal ip : ℚ)
  | d :: fp =>
    if d = '.' then
      if fp.all Char.isDigit && !(ip.isEmpty && fp.isEmpty) then
        some ((digitsVal ip : ℚ) + (digitsVal fp : ℚ) / ((10 : ℚ) ^ fp.length))
      else none
    else none

/-- Number(s) for a string s: trims, empty means 0, otherwise signed decimal. -/
def parseDecString (s : String) : Option ℚ :=
  match (jsTrim s).toList with
  | [] => some 0
  | '+' :: cs => parseUnsignedDec cs
  | '-' :: cs => (parseUnsignedDec cs).map Neg.neg
  | cs => parseUnsignedDec cs

/-- JS Number(x) restricted to finite results; none encodes NaN or an
unrepresented coercion. Arrays coerce through their string form, modelled
for the empty and singleton shapes. -/
def jsNumber : Json → Option ℚ
  | .num q => some q
  | .bool b => some (if b then 1 else 0)
  | .null => some 0
  | .str s => parseDecString s
  | .arr [] => some 0
  | .arr [x] => jsNumber x
  | .arr (_ :: _ :: _) => none
  | .obj _ => none

/-- Math.round: half-up, toward positive infinity. -/
def jsRound (q : ℚ) : Int :=
  Int.floor (q + 1 / 2)

/-! ## validateAnalysisPayload (src/ai.ts) -/

structure AnalysisPayload where
  summary : String
  theme : String
  sentiment_label : String
  sentiment_score : ℚ
  urgency_score : Int
  proposed_fix : String
  suggested_owner : String
deriving Repr, DecidableEq

def requiredKeys : List String :=
  ["summary", "theme", "sentiment_label", "sentiment_score",
   "urgency_score", "proposed_fix", "suggested_owner"]

def firstMissingKey (fields : List (String × Json)) : List String → Option String
  | [] => none
  | k :: rest =>
    if (lookupField fields k).isSome then firstMissingKey fields rest else some k

/-- ai.ts validateAnalysisPayload. A JSON array has typeof object and truthy,
so it passes the object guard and fails on the first key-presence check;
every other non-object value fails the object guard. The validated value
carries the trimmed strings, the coerced sentiment score and the rounded
urgency score, exactly as the source builds it. -/
def validateAnalysisPayload (p : Json) : Except String AnalysisPayload :=
  match p with
  | .arr _ => .error "Missing key: summary"
  | .obj fields =>
    match firstMissingKey fields requiredKeys with
    | some k => .error ("Missing key: " ++ k)
    | none =>
      match lookupField fields "summary" with
      | some (.str summary) =>
        if jsTrim summary = "" then .error "Invalid summary" else
        match lookupField fields "theme" with
        | some (.str theme) =>
          if !themeIsValid theme then .error "Invalid theme" else
          match lookupField fields "sentiment_label" with
          | some (.str slabel) =>
            if jsTrim slabel = "" then .error "Invalid sentiment_label" else
            match lookupField fields "sentiment_score" with
            | some sraw =>
              match jsNumber sraw with
              | none => .error "Invalid sentiment_score"
              | some sscore =>
                if sscore < 0 || 1 < sscore then .error "Invalid sentiment_score" else
                match lookupField fields "urgency_score" with
                | some uraw =>
                  match jsNumber uraw with
                  | none => .error "Invalid urgency_score"
                  | some uscore =>
                    if uscore < 0 || 100 < uscore then .error "Invalid urgency_score" else
                    match lookupField fields "proposed_fix" with
                    | some (.str pfix) =>
                      match lookupField fields "suggested_owner" with
                      | some (.str owner) =>
                        .ok { summary := jsTrim summary
                              theme := theme
                              sentiment_label := jsTrim slabel
                              sentiment_score := sscore
                              urgency_score := jsRound uscore
                              proposed_fix := jsTrim pfix
                              suggested_owner := jsTrim owner }
                      | _ => .error "Invalid suggested_owner"
                    | _ => .error "Invalid proposed_fix"
                | none => .error "Invalid urgency_score"
            | none => .error "Invalid sentiment_score"
          | _ => .error "Invalid sentiment_label"
        | _ => .error "Invalid theme"
      | _ => .error "Invalid summary"
  | _ => .error "Response is not a JSON object"

/-! ## Raw-response cleanup (src/ai.ts lines 118-123) -/

def backtickChar : Char := Char.ofNat 96

/-- The optional case-insensitive json tag right after an opening fence. -/
def dropJsonTag (cs : List Char) : List Char :=
  match cs with
  | a :: b :: d :: e :: rest =>
    if a.toLower = 'j' && b.toLower = 's' && d.toLower = 'o' && e.toLower = 'n' then
      rest
    else cs
  | _ => cs

/-- replace of a leading fence marker: three backticks, an optional json
tag, then any whitespace, all removed when present at the start. -/
def stripLeadingFence (cs : List Char) : List Char :=
  match cs with
  | a :: b :: d :: rest =>
    if a = backtickChar && b = backtickChar && d = backtickChar then
      (dropJsonTag rest).dropWhile isJsWs
    else cs
  | _ => cs

/-- replace of a trailing fence marker: whitespace, three backticks,
whitespace, anchored at the end; unchanged when the pattern is absent. -/
def stripTrailingFence (cs : List Char) : List Char :=
  match cs.reverse.dropWhile isJsWs with
  | a :: b :: d :: rest =>
    if a = backtickChar && b = backtickChar && d = backtickChar then
      (rest.dropWhile isJsWs).reverse
    else cs
  | _ => cs

/-- Longest prefix ending at the last closing brace, or none if there is
no closing brace at all. -/
def dropAfterLastRBrace (cs : List Char) : Option (List Char) :=
  match cs.reverse.dropWhile (fun c => !(c = '}')) with
  | [] => none
  | r => some r.reverse

/-- The span matched by the greedy brace regex of ai.ts: from the first
opening brace through the last closing brace that follows it. -/
def braceSpan? (cs : List Char) : Option (List Char) :=
  dropAfterLastRBrace (cs.dropWhile (fun c => !(c = '{')))

/-- ai.ts cleanup before JSON.parse: trim, strip fence markers, then keep
the brace span when the regex matches (the text is unchanged otherwise). -/
def cleanupResponse (raw : String) : String :=
  let cs := stripTrailingFence (stripLeadingFence (jsTrimList raw.toList))
  String.mk ((braceSpan? cs).getD cs)

/-- Modelled from the spec: the first balanced brace span of the text
(scan from the first opening brace, tracking nesting depth, and stop at
the brace that closes it). The spec describes the cleanup step in these
words; the source uses the greedy regex above instead. -/
def balancedPrefixAux : Nat → List Char → List Char → Option (List Char)
  | _, _, [] => none
  | depth, acc, c :: rest =>
    if c = '{' then balancedPrefixAux (depth + 1) (c :: acc) rest
    else if c = '}' then
      if depth ≤ 1 then some (c :: acc).reverse
      else balancedPrefixAux (depth - 1) (c :: acc) rest
    else balancedPrefixAux depth (c :: acc) rest

/-- Modelled from the spec: first balanced brace span of a text. -/
def firstBalancedSpan (cs : List Char) : Option (List Char) :=
  match cs.dropWhile (fun c => !(c = '{')) with
  | [] => none
  | rest => balancedPrefixAux 0 [] rest

/-! ## Data rows and the store (D1 tables, modelled as explicit state) -/

structure FeedbackRow where
  id : String
  source : String
  title : Option String
  body : String
  customer_tier : Option String
  created_at : String
deriving Repr, DecidableEq

structure AnalysisRow where
  feedback_id : String
  summary : String
  theme : String
  sentiment_label : String
  sentiment_score : ℚ
  urgency_score : Int
  severity : String
  suggested_owner : String
  proposed_fix : String
  analyzed_at : String
  model : String
deriving Repr, DecidableEq

structure EvalRunRow where
  id : String
  created_at : String
  model : String
  prompt_version : String
  total_cases : Nat
  json_valid_rate : ℚ
  theme_valid_rate : ℚ
  recall_at_3 : Option ℚ
deriving Repr, DecidableEq

structure EvalCaseRow where
  run_id : String
  feedback_id : String
  json_valid : Nat
  theme_valid : Nat
  recall_hit : Option Nat
  notes : Option String
deriving Repr, DecidableEq

/-- In-memory eval case record built up by handleEvalRun before it is
persisted with the run id. -/
structure EvalCase where
  feedback_id : String
  json_valid : Nat
  theme_valid : Nat
  recall_hit : Option Nat
  notes : Option String
deriving Repr, DecidableEq

structure Store where
  feedback : List FeedbackRow
  analysis : List AnalysisRow
  evalRuns : List EvalRunRow
  evalCases : List EvalCaseRow
deriving Repr, DecidableEq

def emptyStore : Store := ⟨[], [], [], []⟩

/-- db.ts fetchFeedbackById: SELECT * FROM feedback WHERE id = ?. -/
def fetchFeedbackById (s : Store) (id : String) : Option FeedbackRow :=
  s.feedback.find? (fun f => f.id == id)

/-- The INSERT ... ON CONFLICT(feedback_id) DO UPDATE of analyzeAndStore:
replace the existing row for the key, else append. -/
def upsertAnalysis (s : Store) (row : AnalysisRow) : Store :=
  if s.analysis.any (fun r => r.feedback_id == row.feedback_id) then
    { s with analysis :=
        s.analysis.map (fun r => if r.feedback_id == row.feedback_id then row else r) }
  else
    { s with analysis := s.analysis ++ [row] }

/-! ## External capabilities as oracles -/

/-- Outcome of one chat-model call: the extracted text of a resolved
response, or a rejection (caught by the try block in runAiAnalysis). -/
inductive AiOutcome where
  | ok (raw : String)
  | thrown (msg : String)

/-- Outcome of one embedding call: the resolved response value, or a
rejection (nothing on the embedText path catches it). -/
inductive EmbedOutcome where
  | ret (data : Json)
  | thrown (msg : String)

/-- Outcome of one index query: the ids of the returned matches in order,
or a rejection. -/
inductive VecQueryOutcome where
  | ret (ids : List String)
  | thrown (msg : String)

/-- The worker environment: which bindings are configured, plus oracles
for every external capability. Model calls are indexed by the per-record
call counter, embedding and index calls by their input. -/
structure EnvModel where
  dbConfigured : Bool
  aiConfigured : Bool
  vecConfigured : Bool
  classify : FeedbackRow → Nat → AiOutcome
  parseJson : String → Option Json
  embedCall : String → EmbedOutcome
  vecUpsertCall : String → Option String
  vecQueryCall : List Json → VecQueryOutcome
  likeSearch : String → List FeedbackRow
  dateParses : String → Bool
  now : String

/-! ## Classifier gateway (src/ai.ts) -/

/-- The result shape of runAiAnalysis / runAiAnalysisWithRetry. -/
structure AiAttemptResult where
  analysis : Option AnalysisPayload
  error : Option String
  raw : Option String
deriving Repr, DecidableEq

/-- Cleanup, JSON.parse and validation applied to a raw model response;
shared verbatim by the first attempt and the retry, up to the message
used when JSON.parse throws. -/
def processResponse (parse : String → Option Json) (parseFailMsg : String)
    (raw : String) : Except String AnalysisPayload :=
  match parse (cleanupResponse raw) with
  | none => .error parseFailMsg
  | some p => validateAnalysisPayload p

/-- ai.ts runAiAnalysis. The Nat argument and result thread the number of
model calls made so far for this record. -/
def runAiAnalysis (env : EnvModel) (fb : FeedbackRow) (calls : Nat) :
    AiAttemptResult × Nat :=
  if env.aiConfigured = false then
    (⟨none, some "Missing binding: AI", none⟩, calls)
  else
    match env.classify fb calls with
    | .thrown msg => (⟨none, some msg, none⟩, calls + 1)
    | .ok raw =>
      match processResponse env.parseJson "Invalid JSON from AI" raw with
      | .ok v => (⟨some v, none, some raw⟩, calls + 1)
      | .error e => (⟨none, some e, some raw⟩, calls + 1)

/-- ai.ts runAiAnalysisWithRetry: returns the first attempt when it
produced an analysis, otherwise performs exactly one more model call and
re-applies the same pipeline. (The source binds the first attempt once;
runAiAnalysis is pure here, so repeating the call is the same value.) -/
def runAiAnalysisWithRetry (env : EnvModel) (fb : FeedbackRow) (calls : Nat) :
    AiAttemptResult × Nat :=
  if (runAiAnalysis env fb calls).1.analysis.isSome then runAiAnalysis env fb calls
  else if env.aiConfigured = false then
    (⟨none, some "Missing binding: AI", none⟩, (runAiAnalysis env fb calls).2)
  else
    match env.classify fb (runAiAnalysis env fb calls).2 with
    | .thrown msg => (⟨none, some msg, none⟩, (runAiAnalysis env fb calls).2 + 1)
    | .ok raw =>
      match processResponse env.parseJson "Invalid JSON from AI after retry" raw with
      | .ok v => (⟨some v, none, some raw⟩, (runAiAnalysis env fb calls).2 + 1)
      | .error e => (⟨none, some e, some raw⟩, (runAiAnalysis env fb calls).2 + 1)

/-! ## Embedding gateway and index adapter (src/ai.ts, src/vectorize.ts) -/

def jsGetNonNull (j : Json) (key : String) : Option Json :=
  match j.getField key with
  | some .null => none
  | some v => some v
  | none => none

/-- ai.ts embedText. The error component of an Except is an uncaught
rejection of the embedding call (there is no try block here); the Option
pair is the value-level result shape of the source. -/
def embedText (env : EnvModel) (text : String) :
    Except String (Option (List Json) × Option String) :=
  if env.aiConfigured = false then
    .ok (none, some "Missing binding: AI")
  else
    match env.embedCall text with
    | .thrown msg => .error msg
    | .ret res =>
      let data := (jsGetNonNull res "data").getD ((jsGetNonNull res "result").getD res)
      match data with
      | .arr elems =>
        match elems with
        | (.arr v) :: _ => .ok (some v, none)
        | _ => .ok (some elems, none)
      | _ => .ok (none, some "Embedding unavailable")

def titleOrEmpty (fb : FeedbackRow) : String :=
  fb.title.getD ""

def queryText (fb : FeedbackRow) : String :=
  titleOrEmpty fb ++ "\n" ++ fb.body

/-- vectorize.ts upsertVector: a silent no-op when the index is not
configured or the embedding produced no vector; a rejection of the
embedding call or of the index upsert propagates. -/
def upsertVector (env : EnvModel) (fb : FeedbackRow) : Except String Unit :=
  if env.vecConfigured = false then .ok ()
  else
    match embedText env (queryText fb) with
    | .error msg => .error msg
    | .ok (none, _) => .ok ()
    | .ok (some _, _) =>
      match env.vecUpsertCall fb.id with
      | none => .ok ()
      | some msg => .error msg

/-! ## analyzeAndStore and searchApi (src/handlers.ts) -/

inductive AnalyzeOutcome where
  | failed (msg : String) (status : Nat)
  | analyzed (row : AnalysisRow)
deriving Repr, DecidableEq

/-- The analysis row analyzeAndStore builds from a validated payload:
severity is derived from the urgency score. -/
def analysisRowFor (env : EnvModel) (fb : FeedbackRow) (v : AnalysisPayload) :
    AnalysisRow :=
  { feedback_id := fb.id
    summary := v.summary
    theme := v.theme
    sentiment_label := v.sentiment_label
    sentiment_score := v.sentiment_score
    urgency_score := v.urgency_score
    severity := toSeverity v.urgency_score
    suggested_owner := v.suggested_owner
    proposed_fix := v.proposed_fix
    analyzed_at := env.now
    model := ANALYSIS_MODEL }

/-- handlers.ts analyzeAndStore: classify with retry, derive severity,
upsert the analysis row, then the best-effort-intended index upsert
(whose rejection in fact propagates). upsertVector never reads the
store, so sequencing it after the row upsert is unobservable; store
effects on a thrown path are not tracked: no claim observes them. -/
def analyzeAndStore (env : EnvModel) (s : Store) (fb : FeedbackRow) :
    Except String (Store × AnalyzeOutcome) :=
  if env.dbConfigured = false then
    .ok (s, .failed "Missing binding: DB" 500)
  else
    match (runAiAnalysisWithRetry env fb 0).1.analysis with
    | none =>
      let msg := ((runAiAnalysisWithRetry env fb 0).1.error).getD ""
      let status := if msg.startsWith "Missing binding" then 500 else 502
      .ok (s, .failed ("AI analysis failed: " ++ msg) status)
    | some v =>
      match upsertVector env fb with
      | .error msg => .error msg
      | .ok _ => .ok (upsertAnalysis s (analysisRowFor env fb v), .analyzed (analysisRowFor env fb v))

/-- handlers.ts searchApi. With the index configured: embed the query,
query the index, keep the non-empty ids, and return the stored rows for
those ids in id order. Without it: the LIKE fallback, abstracted as a
store-side oracle (no eval claim depends on its rows). -/
def searchApi (env : EnvModel) (s : Store) (query : String) :
    Except String (List FeedbackRow × Option String) :=
  if env.dbConfigured = false then
    .ok ([], some "Missing DB binding")
  else if env.vecConfigured then
    match embedText env query with
    | .error msg => .error msg
    | .ok (none, err) => .ok ([], some (err.getD "Embedding failed"))
    | .ok (some vec, _) =>
      match env.vecQueryCall vec with
      | .thrown msg => .error msg
      | .ret rawIds =>
        let ids := rawIds.filter (fun i => !(i == ""))
        if ids.isEmpty then .ok ([], none)
        else .ok (ids.filterMap (fun i => s.feedback.find? (fun f => f.id == i)), none)
  else
    .ok (env.likeSearch query, some "Vectorize not configured")

/-! ## Seeding (src/handlers.ts seedGoldenSet) -/

/-- A golden/messy dataset item. An absent or empty id is falsy in the
source and triggers uuid generation. -/
structure SeedItem where
  id : Option String
  source : String
  title : Option String
  body : String
  customer_tier : Option String
  created_at : Option String
deriving Repr, DecidableEq

structure ValidatedFeedback where
  source : String
  title : Option String
  body : String
  customer_tier : Option String
deriving Repr, DecidableEq

structure FeedbackInput where
  source : String
  title : String
  body : String
  customer_tier : String
deriving Repr, DecidableEq

/-- utils.ts validateFeedbackInput on the string-shaped input that
seedGoldenSet builds. The error strings are the response messages. -/
def validateFeedbackInput (i : FeedbackInput) : Except String ValidatedFeedback :=
  let source := normalizeSource i.source
  if (ALLOWED_SOURCES.contains source) = false then
    .error "Invalid source"
  else
    let title := normalizeText i.title
    let body := normalizeText i.body
    let tier := normalizeText i.customer_tier
    if body = "" then .error "Body is required"
    else if body.length > MAX_BODY_CHARS then .error "Body too long"
    else if title.length > MAX_TITLE_CHARS then .error "Title too long"
    else if tier.length > MAX_TIER_CHARS then .error "Customer tier too long"
    else
      .ok { source := source
            title := if title = "" then none else some title
            body := body
            customer_tier := if tier = "" then none else some tier }

def seedInput (item : SeedItem) : FeedbackInput :=
  { source := item.source
    title := item.title.getD ""
    body := item.body
    customer_tier := item.customer_tier.getD "" }

/-- The id the seed loop uses for an item: the item's own id when present
and non-empty, else the next generated uuid (gen is the randomUUID
oracle, k the number of uuids consumed so far). -/
def resolveSeedId (gen : Nat → String) (k : Nat) (item : SeedItem) : String × Nat :=
  match item.id with
  | some x => if x = "" then (gen k, k + 1) else (x, k)
  | none => (gen k, k + 1)

structure SeedOutcome where
  inserted : List String
  duplicate_pairs : List (String × String)
  skipped : List (String × String)
deriving Repr, DecidableEq

/-- The creation timestamp the seed loop resolves for an item: the
supplied one when present, non-empty and parseable as a date, else now. -/
def resolveCreatedAt (env : EnvModel) (item : SeedItem) : String :=
  match item.created_at with
  | some c => if c ≠ "" && env.dateParses c then c else env.now
  | none => env.now

/-- The feedback row the seed loop inserts for a validated item. -/
def seedRow (env : EnvModel) (id : String) (item : SeedItem)
    (v : ValidatedFeedback) : FeedbackRow :=
  { id := id, source := v.source, title := v.title, body := v.body
    customer_tier := v.customer_tier, created_at := resolveCreatedAt env item }

/-- The loop body of seedGoldenSet over the item list: skip with reason
Already exists when the id is stored, skip with reason Validation failed
when validation rejects, else insert with the resolved creation time. -/
def seedLoop (env : EnvModel) (gen : Nat → String) :
    Store → Nat → List SeedItem →
    Store × List String × List (String × String) × Nat
  | s, k, [] => (s, [], [], k)
  | s, k, item :: rest =>
    let id := (resolveSeedId gen k item).1
    let k1 := (resolveSeedId gen k item).2
    if (fetchFeedbackById s id).isSome then
      let r := seedLoop env gen s k1 rest
      (r.1, r.2.1, (id, "Already exists") :: r.2.2.1, r.2.2.2)
    else
      match validateFeedbackInput (seedInput item) with
      | .error _ =>
        let r := seedLoop env gen s k1 rest
        (r.1, r.2.1, (id, "Validation failed") :: r.2.2.1, r.2.2.2)
      | .ok v =>
        let r := seedLoop env gen
          { s with feedback := s.feedback ++ [seedRow env id item v] } k1 rest
        (r.1, id :: r.2.1, r.2.2.1, r.2.2.2)

/-- handlers.ts seedGoldenSet; the Except error is the thrown
Missing DB binding error. -/
def seedGoldenSet (env : EnvModel) (s : Store) (items : List SeedItem)
    (duplicatePairs : List (String × String)) (gen : Nat → String) (k : Nat) :
    Except String (Store × SeedOutcome × Nat) :=
  if env.dbConfigured = false then .error "Missing DB binding"
  else
    let (s1, ins, skip, k1) := seedLoop env gen s k items
    .ok (s1, ⟨ins, duplicatePairs, skip⟩, k1)

/-! ## handleEvalRun (src/handlers.ts) -/

/-- The classify pass: for each golden item fetch the stored record (by
the item's own id, empty when absent); a missing record produces no case;
otherwise classify-and-persist and record an eval case, accumulating the
valid-JSON and valid-theme counts. -/
def classifyRun (env : EnvModel) (s : Store) :
    List SeedItem → Except String (Store × List EvalCase × Nat × Nat)
  | [] => .ok (s, [], 0, 0)
  | item :: rest =>
    match fetchFeedbackById s (item.id.getD "") with
    | none => classifyRun env s rest
    | some fb =>
      match analyzeAndStore env s fb with
      | .error msg => .error msg
      | .ok (s1, .failed _ _) =>
        match classifyRun env s1 rest with
        | .error msg => .error msg
        | .ok (s2, cases, vj, vt) =>
          .ok (s2, ⟨fb.id, 0, 0, none, some "Analysis failed"⟩ :: cases, vj, vt)
      | .ok (s1, .analyzed row) =>
        let tv := if themeIsValid row.theme then 1 else 0
        match classifyRun env s1 rest with
        | .error msg => .error msg
        | .ok (s2, cases, vj, vt) =>
          .ok (s2, ⟨fb.id, 1, tv, none, none⟩ :: cases, vj + 1, vt + tv)

/-- Update the first element satisfying the predicate (the source finds
the case object and mutates it in place). -/
def updateFirst (p : α → Bool) (f : α → α) : List α → List α
  | [] => []
  | x :: xs => if p x then f x :: xs else x :: updateFirst p f xs

/-- The per-pair case update of the recall pass: record the hit flag and,
on a miss, replace the notes with the Recall miss marker. -/
def recallUpdate (hit : Bool) (c : EvalCase) : EvalCase :=
  { c with recall_hit := some (if hit then 1 else 0)
           notes := if hit then c.notes else some "Recall miss" }

def applyRecall (hit : Bool) (idA : String) (cases : List EvalCase) : List EvalCase :=
  updateFirst (fun c => c.feedback_id == idA) (recallUpdate hit) cases

/-- The recall pass with the index configured: for each pair (A, B) fetch
A (a missing record is skipped), query with A's title and body, score a
hit when B is among the top three result ids, and update A's case row.
The second component is the accumulated hit count. -/
def recallRun (env : EnvModel) (s : Store) :
    List EvalCase → List (String × String) → Except String (List EvalCase × Nat)
  | cases, [] => .ok (cases, 0)
  | cases, pr :: rest =>
    match fetchFeedbackById s pr.1 with
    | none => recallRun env s cases rest
    | some fb =>
      match searchApi env s (queryText fb) with
      | .error msg => .error msg
      | .ok (results, _) =>
        let hit := ((results.take 3).map (fun r => r.id)).contains pr.2
        match recallRun env s (applyRecall hit pr.1 cases) rest with
        | .error msg => .error msg
        | .ok (cases2, n) => .ok (cases2, (if hit then 1 else 0) + n)

def setUnconfigured (c : EvalCase) : EvalCase :=
  { c with recall_hit := none, notes := some "Vectorize not configured" }

/-- The recall pass with the index not configured: mark each pair's case
row (looked up by the pair's first id). -/
def markUnconfigured : List EvalCase → List (String × String) → List EvalCase
  | cases, [] => cases
  | cases, pr :: rest =>
    markUnconfigured (updateFirst (fun c => c.feedback_id == pr.1) setUnconfigured cases) rest

def toCaseRow (runId : String) (c : EvalCase) : EvalCaseRow :=
  { run_id := runId, feedback_id := c.feedback_id, json_valid := c.json_valid
    theme_valid := c.theme_valid, recall_hit := c.recall_hit, notes := c.notes }

inductive EvalRunResult where
  | errorResp (msg : String) (status : Nat)
  | ok (run : EvalRunRow)
deriving Repr, DecidableEq

/-- The aggregate-and-persist tail of handleEvalRun: compute the rates
over the recorded cases, build the run row and append the run and case
rows to the store. -/
def evalFinish (env : EnvModel) (runId : String) (s2 : Store) (vj vt : Nat)
    (cases1 : List EvalCase) (recallAt3 : Option ℚ) : Store × EvalRunResult :=
  ({ s2 with
      evalRuns := s2.evalRuns ++
        [{ id := runId, created_at := env.now, model := ANALYSIS_MODEL
           prompt_version := PROMPT_VERSION, total_cases := cases1.length
           json_valid_rate :=
             if cases1.length ≠ 0 then (vj : ℚ) / (cases1.length : ℚ) else 0
           theme_valid_rate :=
             if cases1.length ≠ 0 then (vt : ℚ) / (cases1.length : ℚ) else 0
           recall_at_3 := recallAt3 }]
      evalCases := s2.evalCases ++ cases1.map (toCaseRow runId) },
   .ok { id := runId, created_at := env.now, model := ANALYSIS_MODEL
         prompt_version := PROMPT_VERSION, total_cases := cases1.length
         json_valid_rate :=
           if cases1.length ≠ 0 then (vj : ℚ) / (cases1.length : ℚ) else 0
         theme_valid_rate :=
           if cases1.length ≠ 0 then (vt : ℚ) / (cases1.length : ℚ) else 0
         recall_at_3 := recallAt3 })

/-- handlers.ts handleEvalRun, parameterised by the module-level golden
dataset and duplicate pairs (their values live in golden_dataset.json)
and by the randomUUID oracle; runId is the generated run id. An Except
error is an uncaught rejection aborting the whole invocation. -/
def handleEvalRun (env : EnvModel) (s : Store) (goldenSet : List SeedItem)
    (goldenPairs : List (String × String)) (gen : Nat → String) (runId : String) :
    Except String (Store × EvalRunResult) :=
  if env.dbConfigured = false then .ok (s, .errorResp "Missing binding: DB" 500)
  else if env.aiConfigured = false then .ok (s, .errorResp "Missing binding: AI" 500)
  else
    match seedGoldenSet env s goldenSet goldenPairs gen 0 with
    | .error _ => .ok (s, .errorResp "Failed to seed golden set" 500)
    | .ok (s1, _, _) =>
      match classifyRun env s1 goldenSet with
      | .error msg => .error msg
      | .ok (s2, cases, vj, vt) =>
        if env.vecConfigured then
          match recallRun env s2 cases goldenPairs with
          | .error msg => .error msg
          | .ok (cases1, hits) =>
            .ok (evalFinish env runId s2 vj vt cases1
              (if goldenPairs.length ≠ 0 then
                 some ((hits : ℚ) / (goldenPairs.length : ℚ))
               else none))
        else
          .ok (evalFinish env runId s2 vj vt (markUnconfigured cases goldenPairs) none)

/-- Whether a duplicate pair scores a hit against a fixed store: record A
present and B among the top three ids of the similarity query for A.
A pair whose record A is absent never scores. -/
def pairHit (env : EnvModel) (s : Store) (pr : String × String) : Bool :=
  match fetchFeedbackById s pr.1 with
  | none => false
  | some fb =>
    match searchApi env s (queryText fb) with
    | .ok (results, _) => ((results.take 3).map (fun r => r.id)).contains pr.2
    | .error _ => false

/-! ## Concrete instances used by witnesses and counterexamples -/

def validPayloadJson : Json :=
  Json.obj [("summary", .str "s"), ("theme", .str "Docs confusion"),
    ("sentiment_label", .str "n"), ("sentiment_score", .num (1/2)),
    ("urgency_score", .num 50), ("proposed_fix", .str "f"),
    ("suggested_owner", .str "o")]

def validPayload : AnalysisPayload :=
  ⟨"s", "Docs confusion", "n", 1/2, 50, "f", "o"⟩

def seedItemG1 : SeedItem := ⟨some "g1", "golden", none, "hello", none, none⟩
def seedItemG2 : SeedItem := ⟨some "g2", "golden", none, "world", none, none⟩
def fbG1 : FeedbackRow := ⟨"g1", "golden", none, "hello", none, "T0"⟩
def fbG2 : FeedbackRow := ⟨"g2", "golden", none, "world", none, "T0"⟩

/-- Environment in which every model call rejects, the retrieval index is
not configured, and the store binding is present. -/
def envThrows : EnvModel :=
  { dbConfigured := true, aiConfigured := true, vecConfigured := false
    classify := fun _ _ => .thrown "boom"
    parseJson := fun _ => none
    embedCall := fun _ => .thrown "emb"
    vecUpsertCall := fun _ => none
    vecQueryCall := fun _ => .ret []
    likeSearch := fun _ => []
    dateParses := fun _ => true
    now := "T0" }

/-- Environment whose first model call yields non-JSON text and whose
second yields a parseable, valid payload. -/
def envRetry : EnvModel :=
  { envThrows with
    classify := fun _ n => if n = 0 then .ok "nope" else .ok "\x7bj\x7d"
    parseJson := fun s => if s = "\x7bj\x7d" then some validPayloadJson else none }

/-- Environment with the index configured, failing classification, and a
similarity query that returns g2. -/
def envRecall : EnvModel :=
  { envThrows with
    vecConfigured := true
    embedCall := fun _ => .ret (Json.arr [Json.arr [Json.num 1]])
    vecQueryCall := fun _ => .ret ["g2"] }

/-- Environment in which classification and embedding succeed but the
index upsert call rejects. -/
def envUpsertRejects : EnvModel :=
  { envThrows with
    vecConfigured := true
    classify := fun _ _ => .ok "\x7bj\x7d"
    parseJson := fun s => if s = "\x7bj\x7d" then some validPayloadJson else none
    embedCall := fun _ => .ret (Json.arr [Json.arr [Json.num 1]])
    vecUpsertCall := fun _ => some "Index write failed" }

/-- Dataset with one id-less item and one invalid item, for the seeding
idempotence counterexample. -/
def cxItems : List SeedItem :=
  [⟨none, "golden", none, "dup body", none, none⟩,
   ⟨some "g1", "golden", none, "", none, none⟩]

def cxStore1 : Store :=
  ⟨[⟨"uuid-1", "golden", none, "dup body", none, "T0"⟩], [], [], []⟩

def cxStore2 : Store :=
  ⟨[⟨"uuid-1", "golden", none, "dup body", none, "T0"⟩,
    ⟨"uuid-2", "golden", none, "dup body", none, "T0"⟩], [], [], []⟩

def wSeedStore1 : Store := ⟨[fbG1], [], [], []⟩

/-- The store after the seed and classify passes of the envRecall run. -/
def wStoreG12 : Store := ⟨[fbG1, fbG2], [], [], []⟩

/-- The run row produced by handleEvalRun in envThrows on the one-item
golden set. -/
def wRunA : EvalRunRow :=
  { id := "run-1", created_at := "T0", model := ANALYSIS_MODEL
    prompt_version := PROMPT_VERSION, total_cases := 1
    json_valid_rate := 0, theme_valid_rate := 0, recall_at_3 := none }

def wStoreA : Store :=
  { feedback := [fbG1], analysis := [], evalRuns := [wRunA]
    evalCases := [⟨"run-1", "g1", 0, 0, none, some "Vectorize not configured"⟩] }

/-- The run row produced by handleEvalRun in envRecall on the two-item
golden set with the pair (g1, g2). -/
def wRunB : EvalRunRow :=
  { id := "run-1", created_at := "T0", model := ANALYSIS_MODEL
    prompt_version := PROMPT_VERSION, total_cases := 2
    json_valid_rate := 0, theme_valid_rate := 0, recall_at_3 := some 1 }

def wStoreB : Store :=
  { feedback := [fbG1, fbG2], analysis := [], evalRuns := [wRunB]
    evalCases := [⟨"run-1", "g1", 0, 0, some 1, some "Analysis failed"⟩,
                  ⟨"run-1", "g2", 0, 0, none, some "Analysis failed"⟩] }

/-- The analysis row stored for fbG1 in envRetry. -/
def wAnalysisRow : AnalysisRow :=
  { feedback_id := "g1", summary := "s", theme := "Docs confusion"
    sentiment_label := "n", sentiment_score := 1/2, urgency_score := 50
    severity := "medium", suggested_owner := "o", proposed_fix := "f"
    analyzed_at := "T0", model := ANALYSIS_MODEL }

/-! ## Helper lemmas -/

lemma updateFirst_length {α : Type} (p : α → Bool) (f : α → α) (l : List α) :
    (updateFirst p f l).length = l.length := by
  induction l with
  | nil => rfl
  | cons x xs ih =>
    simp only [updateFirst]
    split <;> simp [ih]

lemma find?_updateFirst_self {α : Type} (p : α → Bool) (f : α → α)
    (hf : ∀ x, p (f x) = p x) (l : List α) :
    (updateFirst p f l).find? p = (l.find? p).map f := by
  induction l with
  | nil => rfl
  | cons x xs ih =>
    by_cases hx : p x
    · have hfx : p (f x) = true := by rw [hf]; exact hx
      simp [updateFirst, hx, List.find?_cons_of_pos, hfx]
    · have hx' : p x = false := by exact eq_false_of_ne_true hx
      simp [updateFirst, hx', List.find?_cons_of_neg, ih]

lemma find?_updateFirst_other {α : Type} (p q : α → Bool) (f : α → α)
    (hf : ∀ x, p (f x) = p x) (hdisj : ∀ x, q x = true → p x = false) (l : List α) :
    (updateFirst q f l).find? p = l.find? p := by
  induction l with
  | nil => rfl
  | cons x xs ih =>
    by_cases hx : q x
    · have hpx : p x = false := hdisj x hx
      have hpfx : p (f x) = false := by rw [hf]; exact hpx
      simp [updateFirst, hx, List.find?_cons_of_neg, hpfx, hpx]
    · have hx' : q x = false := eq_false_of_ne_true hx
      by_cases hpx : p x
      · simp [updateFirst, hx', List.find?_cons_of_pos, hpx]
      · have hpx' : p x = false := eq_false_of_ne_true hpx
        simp [updateFirst, hx', List.find?_cons_of_neg, hpx', ih]

lemma countP_updateFirst {α : Type} (q : α → Bool) (f : α → α)
    (hf : ∀ x, q (f x) = q x) (p : α → Bool) (l : List α) :
    (updateFirst p f l).countP q = l.countP q := by
  induction l with
  | nil => rfl
  | cons x xs ih =>
    simp only [updateFirst]
    split
    · simp [List.countP_cons, hf x]
    · simp [List.countP_cons, ih]

lemma forall_updateFirst {α : Type} (P : α → Prop) (p : α → Bool) (f : α → α)
    (hf : ∀ x, P x → P (f x)) :
    ∀ l : List α, (∀ x ∈ l, P x) → ∀ x ∈ updateFirst p f l, P x := by
  intro l
  induction l with
  | nil => intro _ x hx; cases hx
  | cons y ys ih =>
    intro hl x hx
    simp only [updateFirst] at hx
    by_cases hy : p y
    · rw [if_pos hy] at hx
      rcases List.mem_cons.mp hx with h | h
      · exact h ▸ hf y (hl y (List.mem_cons_self y ys))
      · exact hl x (List.mem_cons_of_mem y h)
    · rw [if_neg hy] at hx
      rcases List.mem_cons.mp hx with h | h
      · exact h ▸ hl y (List.mem_cons_self y ys)
      · exact ih (fun z hz => hl z (List.mem_cons_of_mem y hz)) x h

/-- Shape of the row built by analyzeAndStore on its success path. -/
lemma analyzeAndStore_analyzed_row {env : EnvModel} {s : Store} {fb : FeedbackRow}
    {s1 : Store} {row : AnalysisRow}
    (h : analyzeAndStore env s fb = .ok (s1, .analyzed row)) :
    ∃ v, (runAiAnalysisWithRetry env fb 0).1.analysis = some v ∧
      row = analysisRowFor env fb v ∧ s1 = upsertAnalysis s row := by
  unfold analyzeAndStore at h
  split at h
  · simp at h
  · split at h
    · simp at h
    · rename_i v hai
      cases huv : upsertVector env fb with
      | error m => rw [huv] at h; simp at h
      | ok u =>
        rw [huv] at h
        simp only [Except.ok.injEq, Prod.mk.injEq, AnalyzeOutcome.analyzed.injEq] at h
        obtain ⟨hs, hrow⟩ := h
        exact ⟨v, hai, hrow.symm, by rw [← hs, hrow]⟩

/-- C8: for every urgency score u the derived severity is high iff
u ≥ 70, medium iff 40 ≤ u < 70, low iff u < 40; and every analysis row
persisted by analyzeAndStore stores exactly this function of its urgency
score. -/
theorem severity_characterization :
    (∀ u : Int,
      (toSeverity u = "high" ↔ 70 ≤ u) ∧
      (toSeverity u = "medium" ↔ 40 ≤ u ∧ u < 70) ∧
      (toSeverity u = "low" ↔ u < 40)) ∧
    (∀ env s fb s1 row,
      analyzeAndStore env s fb = Except.ok (s1, AnalyzeOutcome.analyzed row) →
      row.severity = toSeverity row.urgency_score) := by
  constructor
  · intro u
    simp only [toSeverity]
    split_ifs with h1 h2 <;> refine ⟨?_, ?_, ?_⟩ <;> constructor <;> intro h <;>
      first
        | rfl
        | omega
        | (exfalso; revert h; decide)
  · intro env s fb s1 row h
    obtain ⟨v, -, hrow, -⟩ := analyzeAndStore_analyzed_row h
    subst hrow
    rfl

/-- Witness for C8: a concrete successful classify-and-persist whose
stored severity is derived from the stored urgency score. -/
theorem severity_characterization_witness :
    wAnalysisRow.severity = toSeverity wAnalysisRow.urgency_score :=
  severity_characterization.2 envRetry emptyStore fbG1
    ⟨[], [wAnalysisRow], [], []⟩ wAnalysisRow (by with_unfolding_all rfl)

/-- C6: the recall pass updates a pair's case row through recallUpdate;
on a miss the notes are replaced by the Recall miss marker whatever they
were before (an Analysis failed note included), and on a hit the notes
are left unchanged. -/
theorem recall_miss_note_overwrite (idA : String) (cases : List EvalCase) (hit : Bool) :
    ((applyRecall hit idA cases).find? (fun c => c.feedback_id == idA)
      = (cases.find? (fun c => c.feedback_id == idA)).map (recallUpdate hit)) ∧
    (∀ c : EvalCase, (recallUpdate false c).notes = some "Recall miss") ∧
    (∀ c : EvalCase, (recallUpdate true c).notes = c.notes) := by
  refine ⟨?_, fun c => rfl, fun c => rfl⟩
  exact find?_updateFirst_self (fun c => c.feedback_id == idA) (recallUpdate hit)
    (fun x => rfl) cases

lemma runAiAnalysis_calls {env : EnvModel} {fb : FeedbackRow} {c : Nat}
    (hai : env.aiConfigured = true) : (runAiAnalysis env fb c).2 = c + 1 := by
  unfold runAiAnalysis
  rw [hai]
  cases env.classify fb c with
  | thrown m => simp
  | ok raw =>
    cases hp : processResponse env.parseJson "Invalid JSON from AI" raw <;> simp [hp]

/-- The retry branch of runAiAnalysisWithRetry, as one equation. -/
lemma runAiAnalysisWithRetry_eq_of_fail {env : EnvModel} {fb : FeedbackRow}
    (hai : env.aiConfigured = true)
    (hA : (runAiAnalysis env fb 0).1.analysis = none) :
    runAiAnalysisWithRetry env fb 0 =
      match env.classify fb (runAiAnalysis env fb 0).2 with
      | .thrown msg => (⟨none, some msg, none⟩, (runAiAnalysis env fb 0).2 + 1)
      | .ok raw =>
        match processResponse env.parseJson "Invalid JSON from AI after retry" raw with
        | .ok v => (⟨some v, none, some raw⟩, (runAiAnalysis env fb 0).2 + 1)
        | .error e => (⟨none, some e, some raw⟩, (runAiAnalysis env fb 0).2 + 1) := by
  unfold runAiAnalysisWithRetry
  rw [hA, hai]
  simp

/-- C4: the classifier performs at most two model calls; when the
configured first attempt yields no analysis it performs exactly one
retry call, and whenever the retry's raw output survives the shared
cleanup-parse-validate pipeline the final result is that validated
payload with no error. -/
theorem classifier_retry_once (env : EnvModel) (fb : FeedbackRow) :
    (runAiAnalysisWithRetry env fb 0).2 ≤ 2 ∧
    (env.aiConfigured = true →
      (runAiAnalysis env fb 0).1.analysis = none →
      (runAiAnalysisWithRetry env fb 0).2 = 2 ∧
      ∀ raw v, env.classify fb 1 = .ok raw →
        processResponse env.parseJson "Invalid JSON from AI after retry" raw = .ok v →
        (runAiAnalysisWithRetry env fb 0).1.analysis = some v ∧
        (runAiAnalysisWithRetry env fb 0).1.error = none) := by
  by_cases hai : env.aiConfigured = true
  · have hc1 : (runAiAnalysis env fb 0).2 = 1 := runAiAnalysis_calls hai
    cases hA : (runAiAnalysis env fb 0).1.analysis with
    | some v0 =>
      have hsome : (runAiAnalysis env fb 0).1.analysis.isSome = true := by
        rw [hA]; rfl
      constructor
      · unfold runAiAnalysisWithRetry
        rw [hsome]
        simp only [if_true]
        omega
      · intro _ hnone
        exact absurd hnone (by simp)
    | none =>
      have heq := runAiAnalysisWithRetry_eq_of_fail hai hA
      rw [hc1] at heq
      cases h1 : env.classify fb 1 with
      | thrown m =>
        rw [h1] at heq
        simp at heq
        refine ⟨by simp [heq], fun _ _ => ⟨by simp [heq], ?_⟩⟩
        intro raw v hraw _
        cases hraw
      | ok raw2 =>
        rw [h1] at heq
        cases hp : processResponse env.parseJson "Invalid JSON from AI after retry" raw2 with
        | ok v =>
          simp [hp] at heq
          refine ⟨by simp [heq], fun _ _ => ⟨by simp [heq], ?_⟩⟩
          intro raw v2 hraw hproc
          cases hraw
          rw [hp] at hproc
          cases hproc
          simp [heq]
        | error e =>
          simp [hp] at heq
          refine ⟨by simp [heq], fun _ _ => ⟨by simp [heq], ?_⟩⟩
          intro raw v2 hraw hproc
          cases hraw
          rw [hp] at hproc
          cases hproc
  · have hai' : env.aiConfigured = false := by
      revert hai; cases env.aiConfigured <;> simp
    have hres : runAiAnalysisWithRetry env fb 0 =
        (⟨none, some "Missing binding: AI", none⟩, 0) := by
      unfold runAiAnalysisWithRetry runAiAnalysis
      rw [hai']
      simp
    refine ⟨by simp [hres], fun h _ => absurd h (by rw [hai']; simp)⟩

/-- Witness for C4: first attempt returns non-JSON text, the retry
returns a valid payload; the pipeline makes exactly two model calls and
the caller sees the retry's validated payload with no error. -/
theorem classifier_retry_once_witness :
    (runAiAnalysisWithRetry envRetry fbG1 0).2 = 2 ∧
    (runAiAnalysisWithRetry envRetry fbG1 0).1.analysis = some validPayload ∧
    (runAiAnalysisWithRetry envRetry fbG1 0).1.error = none := by
  have h := classifier_retry_once envRetry fbG1
  have h2 := h.2 rfl (by with_unfolding_all rfl)
  have h3 := h2.2 "\x7bj\x7d" validPayload rfl (by with_unfolding_all rfl)
  exact ⟨h2.1, h3.1, h3.2⟩

/-- Counterexample for C9: on text holding two top-level objects the
cleanup keeps the whole span from the first opening brace to the last
closing brace, not the first balanced span. -/
theorem cleanup_not_first_balanced_span :
    (firstBalancedSpan "{a} {b}".toList).map String.mk = some "{a}" ∧
    cleanupResponse "{a} {b}" = "{a} {b}" ∧
    ¬ cleanupResponse "{a} {b}" = "{a}" := by
  refine ⟨by decide, by decide, by decide⟩

lemma dropWhile_head_not {α : Type} (p : α → Bool) (l : List α) :
    ∀ a l2, l.dropWhile p = a :: l2 → p a = false := by
  induction l with
  | nil => intro a l2 h; cases h
  | cons x xs ih =>
    intro a l2 h
    by_cases hx : p x = true
    · rw [List.dropWhile_cons_of_pos hx] at h
      exact ih a l2 h
    · have hx' : p x = false := eq_false_of_ne_true hx
      rw [List.dropWhile_cons_of_neg (by simp [hx'])] at h
      cases h
      exact hx'

/-- Structure of the greedy brace-span extraction: the span starts at
the first opening brace of the text (nothing before it is an opening
brace) and ends at the last closing brace (nothing after it is a
closing brace). -/
lemma braceSpan?_spec (cs sp : List Char) (h : braceSpan? cs = some sp) :
    ∃ pre post, cs = pre ++ sp ++ post ∧
      (∀ c ∈ pre, ¬ c = '{') ∧ (∀ c ∈ post, ¬ c = '}') ∧
      sp.head? = some '{' ∧ sp.getLast? = some '}' := by
  unfold braceSpan? dropAfterLastRBrace at h
  cases hr : ((cs.dropWhile (fun c => !(c = '{'))).reverse.dropWhile (fun c => !(c = '}'))) with
  | nil => rw [hr] at h; cases h
  | cons a r2 =>
    rw [hr] at h
    simp only [Option.some.injEq] at h
    have h1 : List.takeWhile (fun c => !(c = '{')) cs
        ++ List.dropWhile (fun c => !(c = '{')) cs = cs :=
      List.takeWhile_append_dropWhile _ _
    have h2 : List.takeWhile (fun c => !(c = '}')) (List.dropWhile (fun c => !(c = '{')) cs).reverse
        ++ (a :: r2) = (List.dropWhile (fun c => !(c = '{')) cs).reverse := by
      rw [← hr]
      exact List.takeWhile_append_dropWhile _ _
    have h3 : List.dropWhile (fun c => !(c = '{')) cs
        = sp ++ (List.takeWhile (fun c => !(c = '}'))
            (List.dropWhile (fun c => !(c = '{')) cs).reverse).reverse := by
      have h4 := congrArg List.reverse h2
      simp only [List.reverse_append, List.reverse_reverse] at h4
      rw [h] at h4
      exact h4.symm
    refine ⟨List.takeWhile (fun c => !(c = '{')) cs,
           (List.takeWhile (fun c => !(c = '}'))
             (List.dropWhile (fun c => !(c = '{')) cs).reverse).reverse,
           ?_, ?_, ?_, ?_, ?_⟩
    · conv_lhs => rw [← h1, h3]
      rw [← List.append_assoc]
    · intro c hc
      have := List.mem_takeWhile_imp hc
      simpa using this
    · intro c hc
      rw [List.mem_reverse] at hc
      have := List.mem_takeWhile_imp hc
      simpa using this
    · have hspne : sp ≠ [] := by rw [← h]; simp
      obtain ⟨s0, sp2, hsp⟩ := List.exists_cons_of_ne_nil hspne
      have hAux : List.dropWhile (fun c => !(c = '{')) cs
          = s0 :: (sp2 ++ (List.takeWhile (fun c => !(c = '}'))
              (List.dropWhile (fun c => !(c = '{')) cs).reverse).reverse) := by
        conv_lhs => rw [h3, hsp]
        exact List.cons_append _ _ _
      have hq := dropWhile_head_not (fun c => !(c = '{')) cs s0
        (sp2 ++ (List.takeWhile (fun c => !(c = '}'))
          (List.dropWhile (fun c => !(c = '{')) cs).reverse).reverse) hAux
      have hs0 : s0 = '{' := by simpa using hq
      rw [hsp, hs0]
      rfl
    · have ha := dropWhile_head_not (fun c => !(c = '}'))
        (List.dropWhile (fun c => !(c = '{')) cs).reverse a r2 hr
      have ha2 : a = '}' := by simpa using ha
      rw [← h, List.getLast?_reverse, ha2]
      rfl

/-- C9 as amended: after trimming and fence stripping, the cleanup keeps
exactly the span running from the first opening brace through the last
closing brace (when the brace regex matches at all), and that span is
what reaches JSON.parse. -/
theorem cleanup_amended (raw : String) (sp : List Char)
    (h : braceSpan? (stripTrailingFence (stripLeadingFence (jsTrimList raw.toList))) = some sp) :
    cleanupResponse raw = String.mk sp ∧
    ∃ pre post,
      stripTrailingFence (stripLeadingFence (jsTrimList raw.toList)) = pre ++ sp ++ post ∧
      (∀ c ∈ pre, ¬ c = '{') ∧ (∀ c ∈ post, ¬ c = '}') ∧
      sp.head? = some '{' ∧ sp.getLast? = some '}' := by
  refine ⟨?_, braceSpan?_spec _ sp h⟩
  show String.mk ((braceSpan? (stripTrailingFence (stripLeadingFence (jsTrimList raw.toList)))).getD
        (stripTrailingFence (stripLeadingFence (jsTrimList raw.toList)))) = String.mk sp
  rw [h]
  rfl

/-- Witness for C9 as amended: a fenced response reduces to its single
object span. -/
theorem cleanup_amended_witness :
    cleanupResponse "```json\n{a}\n```" = String.mk ['{', 'a', '}'] :=
  (cleanup_amended "```json\n{a}\n```" ['{', 'a', '}'] (by decide)).1

lemma seedLoop_feedback_mono (env : EnvModel) (gen : Nat → String) :
    ∀ (items : List SeedItem) (s : Store) (k : Nat) (id : String) (fb : FeedbackRow),
      fetchFeedbackById s id = some fb →
      fetchFeedbackById (seedLoop env gen s k items).1 id = some fb := by
  intro items
  induction items with
  | nil => intro s k id fb h; exact h
  | cons it rest ih =>
    intro s k id fb h
    simp only [seedLoop]
    split
    · exact ih s _ id fb h
    · split
      · exact ih s _ id fb h
      · apply ih
        unfold fetchFeedbackById at h ⊢
        simp only
        rw [List.find?_append, h]
        rfl

lemma seedLoop_establishes (env : EnvModel) (gen : Nat → String) :
    ∀ (items : List SeedItem) (s : Store) (k : Nat),
      (∀ it ∈ items, ∃ x, it.id = some x ∧ ¬ x = "") →
      (∀ it ∈ items, ∃ v, validateFeedbackInput (seedInput it) = .ok v) →
      ∀ it ∈ items, ∃ fb,
        fetchFeedbackById (seedLoop env gen s k items).1 (it.id.getD "") = some fb := by
  intro items
  induction items with
  | nil => intro s k _ _ it hit; cases hit
  | cons it0 rest ih =>
    intro s k hids hvals it hit
    obtain ⟨x0, hx0, hx0ne⟩ := hids it0 (List.mem_cons_self it0 rest)
    have hres : resolveSeedId gen k it0 = (x0, k) := by
      unfold resolveSeedId
      rw [hx0]
      simp [hx0ne]
    have hidg : it0.id.getD "" = x0 := by rw [hx0]; rfl
    rcases List.mem_cons.mp hit with rfl | hmem
    · simp only [seedLoop, hres]
      by_cases hex : (fetchFeedbackById s x0).isSome
      · obtain ⟨fb0, hfb0⟩ := Option.isSome_iff_exists.mp hex
        rw [if_pos hex]
        simp only [hidg]
        exact ⟨fb0, seedLoop_feedback_mono env gen rest s k x0 fb0 hfb0⟩
      · rw [if_neg hex]
        obtain ⟨v, hv⟩ := hvals it (List.mem_cons_self it rest)
        rw [hv]
        simp only [hidg]
        have hnew : fetchFeedbackById
            { s with feedback := s.feedback ++ [seedRow env x0 it v] } x0
            = some (seedRow env x0 it v) := by
          unfold fetchFeedbackById
          simp only
          rw [List.find?_append]
          have hnone : s.feedback.find? (fun f => f.id == x0) = none := by
            cases hf : s.feedback.find? (fun f => f.id == x0) with
            | none => rfl
            | some fb0 =>
              exfalso
              apply hex
              unfold fetchFeedbackById
              rw [hf]
              rfl
          rw [hnone]
          simp [seedRow]
        exact ⟨seedRow env x0 it v,
          seedLoop_feedback_mono env gen rest _ k x0 _ hnew⟩
    · have hids' : ∀ it2 ∈ rest, ∃ x, it2.id = some x ∧ ¬ x = "" :=
        fun it2 h2 => hids it2 (List.mem_cons_of_mem it0 h2)
      have hvals' : ∀ it2 ∈ rest, ∃ v, validateFeedbackInput (seedInput it2) = .ok v :=
        fun it2 h2 => hvals it2 (List.mem_cons_of_mem it0 h2)
      simp only [seedLoop, hres]
      by_cases hex : (fetchFeedbackById s x0).isSome
      · rw [if_pos hex]
        exact ih s k hids' hvals' it hmem
      · rw [if_neg hex]
        obtain ⟨v, hv⟩ := hvals it0 (List.mem_cons_self it0 rest)
        rw [hv]
        exact ih _ k hids' hvals' it hmem

lemma seedLoop_all_exist (env : EnvModel) (gen : Nat → String) :
    ∀ (items : List SeedItem) (s : Store),
      (∀ it ∈ items, ∃ x, it.id = some x ∧ ¬ x = "") →
      (∀ it ∈ items, (fetchFeedbackById s (it.id.getD "")).isSome) →
      seedLoop env gen s 0 items
        = (s, [], items.map (fun it => (it.id.getD "", "Already exists")), 0) := by
  intro items
  induction items with
  | nil => intro s _ _; rfl
  | cons it0 rest ih =>
    intro s hids hfound
    obtain ⟨x0, hx0, hx0ne⟩ := hids it0 (List.mem_cons_self it0 rest)
    have hres : resolveSeedId gen 0 it0 = (x0, 0) := by
      unfold resolveSeedId
      rw [hx0]
      simp [hx0ne]
    have hidg : it0.id.getD "" = x0 := by rw [hx0]; rfl
    have hex : (fetchFeedbackById s x0).isSome := by
      rw [← hidg]
      exact hfound it0 (List.mem_cons_self it0 rest)
    simp only [seedLoop, hres]
    rw [if_pos hex,
        ih s (fun it2 h2 => hids it2 (List.mem_cons_of_mem it0 h2))
             (fun it2 h2 => hfound it2 (List.mem_cons_of_mem it0 h2))]
    simp [hidg]

/-- Counterexample for C3: a dataset with an id-less item and an invalid
item. A second Seed run against the store left by the first run inserts
a fresh row for the id-less item (a new uuid is generated on every run)
and reports the invalid item as Validation failed, not Already exists. -/
theorem seed_idempotence_counterexample :
    seedGoldenSet envThrows emptyStore cxItems [] (fun _ => "uuid-1") 0
      = .ok (cxStore1, ⟨["uuid-1"], [], [("g1", "Validation failed")]⟩, 1) ∧
    seedGoldenSet envThrows cxStore1 cxItems [] (fun _ => "uuid-2") 0
      = .ok (cxStore2, ⟨["uuid-2"], [], [("g1", "Validation failed")]⟩, 1) ∧
    ¬ (["uuid-2"] = ([] : List String)) ∧
    ¬ ("Validation failed" = "Already exists") :=
  ⟨by decide, by decide, by decide, by decide⟩

/-- C3 as amended: for datasets in which every item carries a non-empty
id and passes feedback validation, a second Seed run against the store
left by a first run inserts zero new rows and reports every item's id as
skipped with reason Already exists. -/
theorem seed_idempotent_amended
    (env : EnvModel) (s0 s1 : Store) (items : List SeedItem)
    (pairs : List (String × String)) (gen1 gen2 : Nat → String)
    (k0 k1 : Nat) (out1 : SeedOutcome)
    (hids : ∀ it ∈ items, ∃ x, it.id = some x ∧ ¬ x = "")
    (hvals : ∀ it ∈ items, ∃ v, validateFeedbackInput (seedInput it) = .ok v)
    (hrun1 : seedGoldenSet env s0 items pairs gen1 k0 = .ok (s1, out1, k1)) :
    seedGoldenSet env s1 items pairs gen2 0
      = .ok (s1, ⟨[], pairs, items.map (fun it => (it.id.getD "", "Already exists"))⟩, 0) := by
  have hdb : env.dbConfigured = true := by
    by_contra hc
    have hfalse : env.dbConfigured = false := by
      revert hc; cases env.dbConfigured <;> simp
    unfold seedGoldenSet at hrun1
    rw [hfalse] at hrun1
    simp at hrun1
  have hs1 : s1 = (seedLoop env gen1 s0 k0 items).1 := by
    unfold seedGoldenSet at hrun1
    rw [hdb] at hrun1
    simp only [Bool.true_eq_false, if_false, Except.ok.injEq, Prod.mk.injEq] at hrun1
    exact hrun1.1.symm
  have hall : ∀ it ∈ items, (fetchFeedbackById s1 (it.id.getD "")).isSome := by
    intro it hit
    obtain ⟨fb, hfb⟩ := seedLoop_establishes env gen1 items s0 k0 hids hvals it hit
    rw [hs1, hfb]
    rfl
  unfold seedGoldenSet
  rw [hdb]
  simp only [Bool.true_eq_false, if_false]
  rw [seedLoop_all_exist env gen2 items s1 hids hall]

/-- Witness for C3 as amended: one valid id-bearing item, already
present in the store left by a first run. -/
theorem seed_idempotent_amended_witness :
    seedGoldenSet envThrows wSeedStore1 [seedItemG1] [] (fun _ => "uuid-3") 0
      = .ok (wSeedStore1, ⟨[], [], [("g1", "Already exists")]⟩, 0) := by
  have h := seed_idempotent_amended envThrows emptyStore wSeedStore1 [seedItemG1] []
      (fun _ => "uuid-0") (fun _ => "uuid-3") 0 0 ⟨["g1"], [], []⟩
      (by intro it hit
          simp only [List.mem_singleton] at hit
          subst hit
          exact ⟨"g1", rfl, by decide⟩)
      (by intro it hit
          simp only [List.mem_singleton] at hit
          subst hit
          exact ⟨⟨"golden", none, "hello", none⟩, by decide⟩)
      (by decide)
  simpa using h

/-- C5: the code, not the claim, is at fault. With classification and
embedding succeeding, a rejected index upsert propagates out of
upsertVector and analyzeAndStore (neither has a catch) and aborts the
whole evaluation run: no case row is recorded even though the
classification itself succeeded. -/
theorem index_upsert_rejection_aborts_eval_run :
    (runAiAnalysisWithRetry envUpsertRejects fbG1 0).1.analysis = some validPayload ∧
    handleEvalRun envUpsertRejects emptyStore [seedItemG1] [("g1", "g2")]
      (fun _ => "u") "run-1" = .error "Index write failed" := by
  constructor
  · with_unfolding_all rfl
  · with_unfolding_all rfl

/-! ## Eval-run invariants -/

lemma validate_theme {p : Json} {v : AnalysisPayload}
    (h : validateAnalysisPayload p = .ok v) : themeIsValid v.theme = true := by
  unfold validateAnalysisPayload at h
  repeat' split at h
  all_goals cases h
  all_goals simp_all

lemma processResponse_theme {parse : String → Option Json} {msg raw : String}
    {v : AnalysisPayload}
    (h : processResponse parse msg raw = .ok v) : themeIsValid v.theme = true := by
  unfold processResponse at h
  split at h
  · cases h
  · exact validate_theme h

lemma runAiAnalysis_theme {env : EnvModel} {fb : FeedbackRow} {c : Nat}
    {v : AnalysisPayload}
    (h : (runAiAnalysis env fb c).1.analysis = some v) :
    themeIsValid v.theme = true := by
  unfold runAiAnalysis at h
  split at h
  · simp at h
  · split at h
    · simp at h
    · rename_i raw
      split at h
      · rename_i v2 hp
        simp only at h
        cases h
        exact processResponse_theme hp
      · simp at h

lemma runAiAnalysisWithRetry_theme {env : EnvModel} {fb : FeedbackRow} {c : Nat}
    {v : AnalysisPayload}
    (h : (runAiAnalysisWithRetry env fb c).1.analysis = some v) :
    themeIsValid v.theme = true := by
  unfold runAiAnalysisWithRetry at h
  split at h
  · exact runAiAnalysis_theme h
  · split at h
    · simp at h
    · split at h
      · simp at h
      · rename_i raw
        split at h
        · rename_i v2 hp
          simp only at h
          cases h
          exact processResponse_theme hp
        · simp at h

/-- Every analysis row persisted on the success path has a taxonomy
member theme. -/
lemma analyzeAndStore_theme {env : EnvModel} {s : Store} {fb : FeedbackRow}
    {s1 : Store} {row : AnalysisRow}
    (h : analyzeAndStore env s fb = .ok (s1, .analyzed row)) :
    themeIsValid row.theme = true := by
  obtain ⟨v, hv, hrow, -⟩ := analyzeAndStore_analyzed_row h
  rw [hrow]
  exact runAiAnalysisWithRetry_theme hv

lemma analyzeAndStore_evalCases {env : EnvModel} {s : Store} {fb : FeedbackRow}
    {s1 : Store} {out : AnalyzeOutcome}
    (h : analyzeAndStore env s fb = .ok (s1, out)) :
    s1.evalCases = s.evalCases ∧ s1.evalRuns = s.evalRuns ∧ s1.feedback = s.feedback := by
  unfold analyzeAndStore at h
  split at h
  · simp only [Except.ok.injEq, Prod.mk.injEq] at h
    rw [← h.1]
    exact ⟨rfl, rfl, rfl⟩
  · split at h
    · simp only [Except.ok.injEq, Prod.mk.injEq] at h
      rw [← h.1]
      exact ⟨rfl, rfl, rfl⟩
    · split at h
      · cases h
      · simp only [Except.ok.injEq, Prod.mk.injEq] at h
        rw [← h.1]
        unfold upsertAnalysis
        split <;> exact ⟨rfl, rfl, rfl⟩

/-- Classify-pass invariant: the accumulated counters are the counts of
valid-JSON and valid-theme cases, and every recorded case has
theme_valid equal to json_valid (both 1 on success, both 0 on failure). -/
lemma classifyRun_inv (env : EnvModel) :
    ∀ (items : List SeedItem) (s s1 : Store) (cases : List EvalCase) (vj vt : Nat),
      classifyRun env s items = .ok (s1, cases, vj, vt) →
      vj = cases.countP (fun c => c.json_valid == 1) ∧
      vt = cases.countP (fun c => c.theme_valid == 1) ∧
      (∀ c ∈ cases, (c.json_valid = 1 ∧ c.theme_valid = 1) ∨
        (c.json_valid = 0 ∧ c.theme_valid = 0)) := by
  intro items
  induction items with
  | nil =>
    intro s s1 cases vj vt h
    simp only [classifyRun, Except.ok.injEq, Prod.mk.injEq] at h
    obtain ⟨-, hc, hj, ht⟩ := h
    subst hc; subst hj; subst ht
    exact ⟨rfl, rfl, by intro c hc2; cases hc2⟩
  | cons it rest ih =>
    intro s s1 cases vj vt h
    simp only [classifyRun] at h
    split at h
    · exact ih s s1 cases vj vt h
    · rename_i fb hfb
      split at h
      · cases h
      · rename_i s2 msg status hout
        split at h
        · cases h
        · rename_i s3 cases2 vj2 vt2 hrest
          simp only [Except.ok.injEq, Prod.mk.injEq] at h
          obtain ⟨-, hc, hj, ht⟩ := h
          obtain ⟨ihj, iht, ihall⟩ := ih _ _ _ _ _ hrest
          subst hc; subst hj; subst ht
          refine ⟨?_, ?_, ?_⟩
          · simp [List.countP_cons, ihj]
          · simp [List.countP_cons, iht]
          · intro c hc2
            rcases List.mem_cons.mp hc2 with rfl | hmem
            · exact Or.inr ⟨rfl, rfl⟩
            · exact ihall c hmem
      · rename_i s2 row hout
        split at h
        · cases h
        · rename_i s3 cases2 vj2 vt2 hrest
          simp only [Except.ok.injEq, Prod.mk.injEq] at h
          obtain ⟨-, hc, hj, ht⟩ := h
          obtain ⟨ihj, iht, ihall⟩ := ih _ _ _ _ _ hrest
          have hth : themeIsValid row.theme = true := analyzeAndStore_theme hout
          subst hc; subst hj; subst ht
          refine ⟨?_, ?_, ?_⟩
          · simp [List.countP_cons, ihj]
          · simp [List.countP_cons, iht, hth]
          · intro c hc2
            rcases List.mem_cons.mp hc2 with rfl | hmem
            · exact Or.inl ⟨rfl, by simp [hth]⟩
            · exact ihall c hmem

lemma classifyRun_store (env : EnvModel) :
    ∀ (items : List SeedItem) (s s1 : Store) (cases : List EvalCase) (vj vt : Nat),
      classifyRun env s items = .ok (s1, cases, vj, vt) →
      s1.evalCases = s.evalCases ∧ s1.evalRuns = s.evalRuns := by
  intro items
  induction items with
  | nil =>
    intro s s1 cases vj vt h
    simp only [classifyRun, Except.ok.injEq, Prod.mk.injEq] at h
    rw [← h.1]
    exact ⟨rfl, rfl⟩
  | cons it rest ih =>
    intro s s1 cases vj vt h
    simp only [classifyRun] at h
    split at h
    · exact ih s s1 cases vj vt h
    · rename_i fb hfb
      split at h
      · cases h
      · rename_i s2 msg status hout
        have hpres := analyzeAndStore_evalCases hout
        split at h
        · cases h
        · rename_i s3 cases2 vj2 vt2 hrest
          simp only [Except.ok.injEq, Prod.mk.injEq] at h
          obtain ⟨hs, -⟩ := h
          obtain ⟨ih1, ih2⟩ := ih _ _ _ _ _ hrest
          rw [← hs, ih1, ih2, hpres.1, hpres.2.1]
          exact ⟨rfl, rfl⟩
      · rename_i s2 row hout
        have hpres := analyzeAndStore_evalCases hout
        split at h
        · cases h
        · rename_i s3 cases2 vj2 vt2 hrest
          simp only [Except.ok.injEq, Prod.mk.injEq] at h
          obtain ⟨hs, -⟩ := h
          obtain ⟨ih1, ih2⟩ := ih _ _ _ _ _ hrest
          rw [← hs, ih1, ih2, hpres.1, hpres.2.1]
          exact ⟨rfl, rfl⟩

lemma seedLoop_store (env : EnvModel) (gen : Nat → String) :
    ∀ (items : List SeedItem) (s : Store) (k : Nat),
      (seedLoop env gen s k items).1.evalCases = s.evalCases ∧
      (seedLoop env gen s k items).1.evalRuns = s.evalRuns := by
  intro items
  induction items with
  | nil => intro s k; exact ⟨rfl, rfl⟩
  | cons it rest ih =>
    intro s k
    simp only [seedLoop]
    split
    · exact ih s _
    · split
      · exact ih s _
      · exact ih _ _

lemma recallRun_length (env : EnvModel) (s : Store) :
    ∀ (pairs : List (String × String)) (cases cs1 : List EvalCase) (n : Nat),
      recallRun env s cases pairs = .ok (cs1, n) → cs1.length = cases.length := by
  intro pairs
  induction pairs with
  | nil =>
    intro cases cs1 n h
    simp only [recallRun, Except.ok.injEq, Prod.mk.injEq] at h
    rw [← h.1]
  | cons pr rest ih =>
    intro cases cs1 n h
    simp only [recallRun] at h
    split at h
    · exact ih cases cs1 n h
    · rename_i fb hfb
      split at h
      · cases h
      · rename_i results note hsearch
        split at h
        · cases h
        · rename_i cases2 n2 hrest
          simp only [Except.ok.injEq, Prod.mk.injEq] at h
          rw [← h.1, ih _ _ _ hrest]
          exact updateFirst_length _ _ cases

lemma recallRun_countP (env : EnvModel) (s : Store) (q : EvalCase → Bool)
    (hq : ∀ hit c, q (recallUpdate hit c) = q c) :
    ∀ (pairs : List (String × String)) (cases cs1 : List EvalCase) (n : Nat),
      recallRun env s cases pairs = .ok (cs1, n) →
      cs1.countP q = cases.countP q := by
  intro pairs
  induction pairs with
  | nil =>
    intro cases cs1 n h
    simp only [recallRun, Except.ok.injEq, Prod.mk.injEq] at h
    rw [← h.1]
  | cons pr rest ih =>
    intro cases cs1 n h
    simp only [recallRun] at h
    split at h
    · exact ih cases cs1 n h
    · rename_i fb hfb
      split at h
      · cases h
      · rename_i results note hsearch
        split at h
        · cases h
        · rename_i cases2 n2 hrest
          simp only [Except.ok.injEq, Prod.mk.injEq] at h
          rw [← h.1, ih _ _ _ hrest]
          exact countP_updateFirst q _ (hq _) _ cases

lemma recallRun_forall (env : EnvModel) (s : Store) (P : EvalCase → Prop)
    (hP : ∀ hit c, P c → P (recallUpdate hit c)) :
    ∀ (pairs : List (String × String)) (cases cs1 : List EvalCase) (n : Nat),
      recallRun env s cases pairs = .ok (cs1, n) →
      (∀ c ∈ cases, P c) → ∀ c ∈ cs1, P c := by
  intro pairs
  induction pairs with
  | nil =>
    intro cases cs1 n h hall
    simp only [recallRun, Except.ok.injEq, Prod.mk.injEq] at h
    rw [← h.1]
    exact hall
  | cons pr rest ih =>
    intro cases cs1 n h hall
    simp only [recallRun] at h
    split at h
    · exact ih cases cs1 n h hall
    · rename_i fb hfb
      split at h
      · cases h
      · rename_i results note hsearch
        split at h
        · cases h
        · rename_i cases2 n2 hrest
          simp only [Except.ok.injEq, Prod.mk.injEq] at h
          rw [← h.1]
          exact ih _ _ _ hrest
            (forall_updateFirst P _ _ (hP _) cases hall)

lemma recallRun_hits (env : EnvModel) (s : Store) :
    ∀ (pairs : List (String × String)) (cases cs1 : List EvalCase) (n : Nat),
      recallRun env s cases pairs = .ok (cs1, n) →
      n = (pairs.filter (pairHit env s)).length := by
  intro pairs
  induction pairs with
  | nil =>
    intro cases cs1 n h
    simp only [recallRun, Except.ok.injEq, Prod.mk.injEq] at h
    rw [← h.2]
    rfl
  | cons pr rest ih =>
    intro cases cs1 n h
    simp only [recallRun] at h
    split at h
    · rename_i hfb
      have hph : pairHit env s pr = false := by
        simp [pairHit, hfb]
      rw [List.filter_cons, hph]
      simp only [Bool.false_eq_true, if_false]
      exact ih cases cs1 n h
    · rename_i fb hfb
      split at h
      · cases h
      · rename_i results note hsearch
        have hph : pairHit env s pr
            = ((results.take 3).map (fun r => r.id)).contains pr.2 := by
          simp [pairHit, hfb, hsearch]
        split at h
        · cases h
        · rename_i cases2 n2 hrest
          simp only [Except.ok.injEq, Prod.mk.injEq] at h
          rw [← h.2, ih _ _ _ hrest, List.filter_cons, hph]
          by_cases hc : ((results.take 3).map (fun r => r.id)).contains pr.2
          · rw [hc]
            simp
            omega
          · have hc' : ((results.take 3).map (fun r => r.id)).contains pr.2 = false :=
              eq_false_of_ne_true hc
            rw [hc']
            simp

lemma markUnconfigured_length :
    ∀ (pairs : List (String × String)) (cases : List EvalCase),
      (markUnconfigured cases pairs).length = cases.length := by
  intro pairs
  induction pairs with
  | nil => intro cases; rfl
  | cons pr rest ih =>
    intro cases
    simp only [markUnconfigured]
    rw [ih, updateFirst_length]

lemma markUnconfigured_countP (q : EvalCase → Bool)
    (hq : ∀ c, q (setUnconfigured c) = q c) :
    ∀ (pairs : List (String × String)) (cases : List EvalCase),
      (markUnconfigured cases pairs).countP q = cases.countP q := by
  intro pairs
  induction pairs with
  | nil => intro cases; rfl
  | cons pr rest ih =>
    intro cases
    simp only [markUnconfigured]
    rw [ih, countP_updateFirst q _ hq]

lemma markUnconfigured_forall (P : EvalCase → Prop)
    (hP : ∀ c, P c → P (setUnconfigured c)) :
    ∀ (pairs : List (String × String)) (cases : List EvalCase),
      (∀ c ∈ cases, P c) → ∀ c ∈ markUnconfigured cases pairs, P c := by
  intro pairs
  induction pairs with
  | nil => intro cases hall; exact hall
  | cons pr rest ih =>
    intro cases hall
    simp only [markUnconfigured]
    exact ih _ (forall_updateFirst P _ _ hP cases hall)

lemma markUnconfigured_marks :
    ∀ (pairs : List (String × String)) (cases : List EvalCase) (A : String),
      ((∃ pr ∈ pairs, pr.1 = A) ∨
        (∀ c, cases.find? (fun c0 => c0.feedback_id == A) = some c →
          c.recall_hit = none ∧ c.notes = some "Vectorize not configured")) →
      ∀ c, (markUnconfigured cases pairs).find? (fun c0 => c0.feedback_id == A) = some c →
        c.recall_hit = none ∧ c.notes = some "Vectorize not configured" := by
  intro pairs
  induction pairs with
  | nil =>
    intro cases A hyp c hc
    rcases hyp with ⟨pr, hpr, -⟩ | hmarked
    · cases hpr
    · exact hmarked c hc
  | cons pr rest ih =>
    intro cases A hyp c hc
    simp only [markUnconfigured] at hc
    by_cases hA : pr.1 = A
    · subst hA
      refine ih _ pr.1 (Or.inr ?_) c hc
      intro c2 hc2
      rw [find?_updateFirst_self (fun c0 => c0.feedback_id == pr.1) setUnconfigured
        (fun x => rfl) cases] at hc2
      cases hfind : cases.find? (fun c0 => c0.feedback_id == pr.1) with
      | none => rw [hfind] at hc2; cases hc2
      | some c0 =>
        rw [hfind] at hc2
        have hc3 : some (setUnconfigured c0) = some c2 := hc2
        cases hc3
        exact ⟨rfl, rfl⟩
    · have hpres :
          (updateFirst (fun c0 => c0.feedback_id == pr.1) setUnconfigured cases).find?
            (fun c0 => c0.feedback_id == A)
          = cases.find? (fun c0 => c0.feedback_id == A) := by
        apply find?_updateFirst_other
        · intro x; rfl
        · intro x hx
          by_cases hxa : (x.feedback_id == A) = true
          · exfalso
            apply hA
            have h1 : x.feedback_id = pr.1 := by
              have := of_decide_eq_true hx
              simpa using hx
            have h2 : x.feedback_id = A := by
              simpa using hxa
            rw [← h1, h2]
          · exact eq_false_of_ne_true hxa
      rcases hyp with ⟨pr2, hpr2, hpr2A⟩ | hmarked
      · rcases List.mem_cons.mp hpr2 with rfl | hmem
        · exact absurd hpr2A hA
        · exact ih _ A (Or.inl ⟨pr2, hmem, hpr2A⟩) c hc
      · refine ih _ A (Or.inr ?_) c hc
        intro c2 hc2
        rw [hpres] at hc2
        exact hmarked c2 hc2

lemma seedGoldenSet_store {env : EnvModel} {s : Store} {items : List SeedItem}
    {pairs : List (String × String)} {gen : Nat → String} {k k1 : Nat}
    {s1 : Store} {out : SeedOutcome}
    (h : seedGoldenSet env s items pairs gen k = .ok (s1, out, k1)) :
    s1.evalCases = s.evalCases ∧ s1.evalRuns = s.evalRuns := by
  unfold seedGoldenSet at h
  split at h
  · cases h
  · simp only [Except.ok.injEq, Prod.mk.injEq] at h
    rw [← h.1]
    exact seedLoop_store env gen items s k

/-- Decomposition of a completed evaluation run into its phases. -/
lemma handleEvalRun_ok_decomp {env : EnvModel} {s : Store} {gset : List SeedItem}
    {pairs : List (String × String)} {gen : Nat → String} {runId : String}
    {sf : Store} {r : EvalRunRow}
    (h : handleEvalRun env s gset pairs gen runId = .ok (sf, .ok r)) :
    ∃ s1 out k1 s2 cases vj vt cases1 recallAt3,
      seedGoldenSet env s gset pairs gen 0 = .ok (s1, out, k1) ∧
      classifyRun env s1 gset = .ok (s2, cases, vj, vt) ∧
      ((env.vecConfigured = true ∧
          ∃ hits, recallRun env s2 cases pairs = .ok (cases1, hits) ∧
            recallAt3 = (if pairs.length ≠ 0 then
              some ((hits : ℚ) / (pairs.length : ℚ)) else none))
        ∨ (env.vecConfigured = false ∧
            cases1 = markUnconfigured cases pairs ∧ recallAt3 = none)) ∧
      (sf, EvalRunResult.ok r) = evalFinish env runId s2 vj vt cases1 recallAt3 := by
  unfold handleEvalRun at h
  split at h
  · simp at h
  · split at h
    · simp at h
    · split at h
      · simp at h
      · rename_i s1 out k1 hseed
        split at h
        · cases h
        · rename_i s2 cases vj vt hcls
          split at h
          · rename_i hvec
            split at h
            · cases h
            · rename_i cases1 hits hrec
              simp only [Except.ok.injEq] at h
              exact ⟨s1, out, k1, s2, cases, vj, vt, cases1, _, hseed, hcls,
                Or.inl ⟨hvec, hits, hrec, rfl⟩, h.symm⟩
          · rename_i hvec
            simp only [Except.ok.injEq] at h
            refine ⟨s1, out, k1, s2, cases, vj, vt, markUnconfigured cases pairs, none,
              hseed, hcls, Or.inr ⟨?_, rfl, rfl⟩, h.symm⟩
            revert hvec
            cases env.vecConfigured <;> simp

/-- Fields of the run row produced by evalFinish. -/
lemma evalFinish_run (env : EnvModel) (runId : String) (s2 : Store) (vj vt : Nat)
    (cases1 : List EvalCase) (recallAt3 : Option ℚ) :
    (evalFinish env runId s2 vj vt cases1 recallAt3).2
      = .ok { id := runId, created_at := env.now, model := ANALYSIS_MODEL
              prompt_version := PROMPT_VERSION, total_cases := cases1.length
              json_valid_rate :=
                if cases1.length ≠ 0 then (vj : ℚ) / (cases1.length : ℚ) else 0
              theme_valid_rate :=
                if cases1.length ≠ 0 then (vt : ℚ) / (cases1.length : ℚ) else 0
              recall_at_3 := recallAt3 } := rfl

lemma evalFinish_evalCases (env : EnvModel) (runId : String) (s2 : Store) (vj vt : Nat)
    (cases1 : List EvalCase) (recallAt3 : Option ℚ) :
    (evalFinish env runId s2 vj vt cases1 recallAt3).1.evalCases
      = s2.evalCases ++ cases1.map (toCaseRow runId) := rfl

/-- C1: a completed evaluation run has a null recall_at_3 whenever the
index is not configured; with the index configured and at least one
configured pair, recall_at_3 is the number of pairs whose B id appears
among the top three ids of A's similarity query, divided by the total
number of configured pairs, and a pair whose record A is absent from the
store never scores a hit (it contributes 0 to the numerator while still
counted in the denominator). -/
theorem evalRun_recall_at_3 (env : EnvModel) (s : Store) (gset : List SeedItem)
    (pairs : List (String × String)) (gen : Nat → String) (runId : String)
    (sf : Store) (r : EvalRunRow)
    (hrun : handleEvalRun env s gset pairs gen runId = .ok (sf, .ok r)) :
    (env.vecConfigured = false → r.recall_at_3 = none) ∧
    (∀ s1 out k1 s2 cases vj vt,
      env.vecConfigured = true → pairs ≠ [] →
      seedGoldenSet env s gset pairs gen 0 = .ok (s1, out, k1) →
      classifyRun env s1 gset = .ok (s2, cases, vj, vt) →
      r.recall_at_3
        = some (((pairs.filter (pairHit env s2)).length : ℚ) / (pairs.length : ℚ)) ∧
      ∀ pr ∈ pairs, fetchFeedbackById s2 pr.1 = none → pairHit env s2 pr = false) := by
  obtain ⟨s1x, outx, k1x, s2x, casesx, vjx, vtx, cases1, rAt3,
    hseedx, hclsx, hdisj, hfin⟩ := handleEvalRun_ok_decomp hrun
  have hr : r.recall_at_3 = rAt3 := by
    have h2 := congrArg Prod.snd hfin
    rw [evalFinish_run] at h2
    simp only [EvalRunResult.ok.injEq] at h2
    rw [h2]
  constructor
  · intro hvec
    rcases hdisj with ⟨hvt, -⟩ | ⟨-, -, hnone⟩
    · rw [hvec] at hvt; cases hvt
    · rw [hr, hnone]
  · intro s1 out k1 s2 cases vj vt hvec hne hseed hcls
    have e1 : s1x = s1 := by
      have := hseedx.symm.trans hseed
      simp only [Except.ok.injEq, Prod.mk.injEq] at this
      exact this.1
    rw [e1] at hclsx
    have e2 : s2x = s2 ∧ casesx = cases := by
      have := hclsx.symm.trans hcls
      simp only [Except.ok.injEq, Prod.mk.injEq] at this
      exact ⟨this.1, this.2.1⟩
    rcases hdisj with ⟨-, hits, hrec, hAt3⟩ | ⟨hvf, -, -⟩
    · rw [e2.1, e2.2] at hrec
      have hcount := recallRun_hits env s2 pairs cases cases1 hits hrec
      have hlen : pairs.length ≠ 0 := by
        intro h0
        exact hne (List.length_eq_zero.mp h0)
      refine ⟨?_, ?_⟩
      · rw [hr, hAt3, if_pos hlen, hcount]
      · intro pr hpr hfetch
        simp [pairHit, hfetch]
    · rw [hvec] at hvf; cases hvf

/-- C2: the persisted rates are the counts of valid-JSON and valid-theme
rows among the recorded eval case rows divided by the number of recorded
rows, both lie in the unit interval, and both are zero when no case was
recorded. -/
theorem evalRun_rates (env : EnvModel) (s : Store) (gset : List SeedItem)
    (pairs : List (String × String)) (gen : Nat → String) (runId : String)
    (sf : Store) (r : EvalRunRow)
    (hrun : handleEvalRun env s gset pairs gen runId = .ok (sf, .ok r)) :
    0 ≤ r.json_valid_rate ∧ r.json_valid_rate ≤ 1 ∧
    0 ≤ r.theme_valid_rate ∧ r.theme_valid_rate ≤ 1 ∧
    (r.total_cases = 0 → r.json_valid_rate = 0 ∧ r.theme_valid_rate = 0) ∧
    ∃ rows : List EvalCaseRow,
      sf.evalCases = s.evalCases ++ rows ∧
      rows.length = r.total_cases ∧
      r.json_valid_rate = (if rows.length ≠ 0 then
        ((rows.countP (fun c => c.json_valid == 1) : ℚ)) / (rows.length : ℚ) else 0) ∧
      r.theme_valid_rate = (if rows.length ≠ 0 then
        ((rows.countP (fun c => c.theme_valid == 1) : ℚ)) / (rows.length : ℚ) else 0) := by
  obtain ⟨s1, out, k1, s2, cases, vj, vt, cases1, rAt3,
    hseed, hcls, hdisj, hfin⟩ := handleEvalRun_ok_decomp hrun
  have hrr : r = { id := runId, created_at := env.now, model := ANALYSIS_MODEL
                   prompt_version := PROMPT_VERSION, total_cases := cases1.length
                   json_valid_rate :=
                     if cases1.length ≠ 0 then (vj : ℚ) / (cases1.length : ℚ) else 0
                   theme_valid_rate :=
                     if cases1.length ≠ 0 then (vt : ℚ) / (cases1.length : ℚ) else 0
                   recall_at_3 := rAt3 } := by
    have h2 := congrArg Prod.snd hfin
    rw [evalFinish_run] at h2
    simp only [EvalRunResult.ok.injEq] at h2
    exact h2
  obtain ⟨hvj, hvt, -⟩ := classifyRun_inv env gset s1 s2 cases vj vt hcls
  have hjc : cases1.countP (fun c => c.json_valid == 1)
      = cases.countP (fun c => c.json_valid == 1) := by
    rcases hdisj with ⟨-, hits, hrec, -⟩ | ⟨-, hmk, -⟩
    · exact recallRun_countP env s2 (fun c => c.json_valid == 1)
        (fun _ _ => rfl) pairs cases cases1 hits hrec
    · rw [hmk]
      exact markUnconfigured_countP (fun c => c.json_valid == 1)
        (fun _ => rfl) pairs cases
  have htc : cases1.countP (fun c => c.theme_valid == 1)
      = cases.countP (fun c => c.theme_valid == 1) := by
    rcases hdisj with ⟨-, hits, hrec, -⟩ | ⟨-, hmk, -⟩
    · exact recallRun_countP env s2 (fun c => c.theme_valid == 1)
        (fun _ _ => rfl) pairs cases cases1 hits hrec
    · rw [hmk]
      exact markUnconfigured_countP (fun c => c.theme_valid == 1)
        (fun _ => rfl) pairs cases
  have hlen : cases1.length = cases.length := by
    rcases hdisj with ⟨-, hits, hrec, -⟩ | ⟨-, hmk, -⟩
    · exact recallRun_length env s2 pairs cases cases1 hits hrec
    · rw [hmk]
      exact markUnconfigured_length pairs cases
  have hvjle : vj ≤ cases1.length := by
    rw [hvj, hlen]
    exact List.countP_le_length _
  have hvtle : vt ≤ cases1.length := by
    rw [hvt, hlen]
    exact List.countP_le_length _
  have hbound1 : (0 : ℚ) ≤ (if cases1.length ≠ 0 then (vj : ℚ) / (cases1.length : ℚ) else 0)
      ∧ (if cases1.length ≠ 0 then (vj : ℚ) / (cases1.length : ℚ) else 0) ≤ 1 := by
    split
    · constructor
      · positivity
      · rename_i hne
        rw [div_le_one (by positivity)]
        exact_mod_cast hvjle
    · exact ⟨le_refl 0, by norm_num⟩
  have hbound2 : (0 : ℚ) ≤ (if cases1.length ≠ 0 then (vt : ℚ) / (cases1.length : ℚ) else 0)
      ∧ (if cases1.length ≠ 0 then (vt : ℚ) / (cases1.length : ℚ) else 0) ≤ 1 := by
    split
    · constructor
      · positivity
      · rename_i hne
        rw [div_le_one (by positivity)]
        exact_mod_cast hvtle
    · exact ⟨le_refl 0, by norm_num⟩
  have hstore : sf.evalCases = s.evalCases ++ cases1.map (toCaseRow runId) := by
    have h1 := congrArg Prod.fst hfin
    have h2 : sf.evalCases = (evalFinish env runId s2 vj vt cases1 rAt3).1.evalCases := by
      rw [← h1]
    rw [evalFinish_evalCases] at h2
    obtain ⟨hc2, -⟩ := classifyRun_store env gset s1 s2 cases vj vt hcls
    obtain ⟨hc1, -⟩ := seedGoldenSet_store hseed
    rw [h2, hc2, hc1]
  refine ⟨by rw [hrr]; exact hbound1.1, by rw [hrr]; exact hbound1.2,
          by rw [hrr]; exact hbound2.1, by rw [hrr]; exact hbound2.2, ?_, ?_⟩
  · intro h0
    rw [hrr] at h0 ⊢
    simp only at h0 ⊢
    rw [h0]
    simp
  · refine ⟨cases1.map (toCaseRow runId), hstore, ?_, ?_, ?_⟩
    · rw [hrr]
      simp
    · rw [hrr]
      simp only [List.length_map]
      have hcp : (cases1.map (toCaseRow runId)).countP (fun c => c.json_valid == 1)
          = cases1.countP (fun c => c.json_valid == 1) :=
        List.countP_map _ _ _
      rw [hcp, hjc, ← hvj]
    · rw [hrr]
      simp only [List.length_map]
      have hcp : (cases1.map (toCaseRow runId)).countP (fun c => c.theme_valid == 1)
          = cases1.countP (fun c => c.theme_valid == 1) :=
        List.countP_map _ _ _
      rw [hcp, htc, ← hvt]

/-- C7: when the retrieval index is not configured, a completed run has
a null recall_at_3 and, for every configured duplicate pair, the
recorded case row for the pair's query record carries recall_hit null
and the Vectorize-not-configured note. -/
theorem evalRun_unconfigured (env : EnvModel) (s : Store) (gset : List SeedItem)
    (pairs : List (String × String)) (gen : Nat → String) (runId : String)
    (sf : Store) (r : EvalRunRow)
    (hvec : env.vecConfigured = false)
    (hrun : handleEvalRun env s gset pairs gen runId = .ok (sf, .ok r)) :
    r.recall_at_3 = none ∧
    ∃ rows : List EvalCaseRow,
      sf.evalCases = s.evalCases ++ rows ∧
      ∀ pr ∈ pairs, ∀ c, rows.find? (fun c0 => c0.feedback_id == pr.1) = some c →
        c.recall_hit = none ∧ c.notes = some "Vectorize not configured" := by
  obtain ⟨s1, out, k1, s2, cases, vj, vt, cases1, rAt3,
    hseed, hcls, hdisj, hfin⟩ := handleEvalRun_ok_decomp hrun
  rcases hdisj with ⟨hvt, -⟩ | ⟨-, hmk, hnone⟩
  · rw [hvec] at hvt; cases hvt
  · have hr3 : r.recall_at_3 = none := by
      have h2 := congrArg Prod.snd hfin
      rw [evalFinish_run] at h2
      simp only [EvalRunResult.ok.injEq] at h2
      rw [h2, hnone]
    refine ⟨hr3, cases1.map (toCaseRow runId), ?_, ?_⟩
    · have h1 := congrArg Prod.fst hfin
      have h2 : sf.evalCases = (evalFinish env runId s2 vj vt cases1 rAt3).1.evalCases := by
        rw [← h1]
      rw [evalFinish_evalCases] at h2
      obtain ⟨hc2, -⟩ := classifyRun_store env gset s1 s2 cases vj vt hcls
      obtain ⟨hc1, -⟩ := seedGoldenSet_store hseed
      rw [h2, hc2, hc1]
    · intro pr hpr c hc
      rw [List.find?_map] at hc
      cases hf : cases1.find? ((fun c0 => c0.feedback_id == pr.1) ∘ toCaseRow runId) with
      | none => rw [hf] at hc; cases hc
      | some c0 =>
        rw [hf] at hc
        have hc2 : some (toCaseRow runId c0) = some c := hc
        cases hc2
        have hfind : (markUnconfigured cases pairs).find?
            (fun c0 => c0.feedback_id == pr.1) = some c0 := by
          rw [← hmk]
          exact hf
        have hm := markUnconfigured_marks pairs cases pr.1 (Or.inl ⟨pr, hpr, rfl⟩) c0 hfind
        exact ⟨hm.1, hm.2⟩

/-- C10: in every completed evaluation run theme validity coincides with
JSON validity on every recorded case row (validation admits only
taxonomy-member themes), so the two rates are equal. -/
theorem evalRun_theme_eq_json (env : EnvModel) (s : Store) (gset : List SeedItem)
    (pairs : List (String × String)) (gen : Nat → String) (runId : String)
    (sf : Store) (r : EvalRunRow)
    (hrun : handleEvalRun env s gset pairs gen runId = .ok (sf, .ok r)) :
    r.theme_valid_rate = r.json_valid_rate ∧
    ∃ rows : List EvalCaseRow,
      sf.evalCases = s.evalCases ++ rows ∧
      ∀ c ∈ rows, c.theme_valid = c.json_valid := by
  obtain ⟨s1, out, k1, s2, cases, vj, vt, cases1, rAt3,
    hseed, hcls, hdisj, hfin⟩ := handleEvalRun_ok_decomp hrun
  obtain ⟨hvj, hvt, hall⟩ := classifyRun_inv env gset s1 s2 cases vj vt hcls
  have hvtj : vt = vj := by
    rw [hvj, hvt]
    apply List.countP_congr
    intro c hcm
    rcases hall c hcm with ⟨h1, h2⟩ | ⟨h1, h2⟩ <;> simp [h1, h2]
  have hrr : r = { id := runId, created_at := env.now, model := ANALYSIS_MODEL
                   prompt_version := PROMPT_VERSION, total_cases := cases1.length
                   json_valid_rate :=
                     if cases1.length ≠ 0 then (vj : ℚ) / (cases1.length : ℚ) else 0
                   theme_valid_rate :=
                     if cases1.length ≠ 0 then (vt : ℚ) / (cases1.length : ℚ) else 0
                   recall_at_3 := rAt3 } := by
    have h2 := congrArg Prod.snd hfin
    rw [evalFinish_run] at h2
    simp only [EvalRunResult.ok.injEq] at h2
    exact h2
  have hPall : ∀ c ∈ cases1, c.theme_valid = c.json_valid := by
    have hbase : ∀ c ∈ cases, c.theme_valid = c.json_valid := by
      intro c hcm
      rcases hall c hcm with ⟨h1, h2⟩ | ⟨h1, h2⟩ <;> rw [h1, h2]
    rcases hdisj with ⟨-, hits, hrec, -⟩ | ⟨-, hmk, -⟩
    · exact recallRun_forall env s2 (fun c => c.theme_valid = c.json_valid)
        (fun _ _ h => h) pairs cases cases1 hits hrec hbase
    · rw [hmk]
      exact markUnconfigured_forall (fun c => c.theme_valid = c.json_valid)
        (fun _ h => h) pairs cases hbase
  refine ⟨by rw [hrr]; simp only; rw [hvtj], ?_⟩
  refine ⟨cases1.map (toCaseRow runId), ?_, ?_⟩
  · have h1 := congrArg Prod.fst hfin
    have h2 : sf.evalCases = (evalFinish env runId s2 vj vt cases1 rAt3).1.evalCases := by
      rw [← h1]
    rw [evalFinish_evalCases] at h2
    obtain ⟨hc2, -⟩ := classifyRun_store env gset s1 s2 cases vj vt hcls
    obtain ⟨hc1, -⟩ := seedGoldenSet_store hseed
    rw [h2, hc2, hc1]
  · intro c hcm
    rw [List.mem_map] at hcm
    obtain ⟨c0, hc0, rfl⟩ := hcm
    exact hPall c0 hc0

/-- Witness for C1: a configured index, one pair whose query hits; the
completed run carries recall_at_3 = 1/1 = 1. -/
theorem evalRun_recall_at_3_witness :
    wRunB.recall_at_3
      = some ((((([("g1", "g2")] : List (String × String)).filter
            (pairHit envRecall wStoreG12)).length : ℚ))
          / ((([("g1", "g2")] : List (String × String)).length : ℚ))) ∧
    (((([("g1", "g2")] : List (String × String)).filter
          (pairHit envRecall wStoreG12)).length : ℚ))
        / ((([("g1", "g2")] : List (String × String)).length : ℚ)) = 1 := by
  constructor
  · exact ((evalRun_recall_at_3 envRecall emptyStore [seedItemG1, seedItemG2]
      [("g1", "g2")] (fun _ => "u") "run-1" wStoreB wRunB
      (by with_unfolding_all rfl)).2
      wStoreG12 ⟨["g1", "g2"], [("g1", "g2")], []⟩ 0 wStoreG12
      [⟨"g1", 0, 0, none, some "Analysis failed"⟩,
       ⟨"g2", 0, 0, none, some "Analysis failed"⟩] 0 0
      rfl (by decide) (by with_unfolding_all rfl) (by with_unfolding_all rfl)).1
  · with_unfolding_all rfl

/-- Witness for C2: the rates of a completed concrete run are in the
unit interval. -/
theorem evalRun_rates_witness :
    0 ≤ wRunA.json_valid_rate ∧ wRunA.json_valid_rate ≤ 1 ∧
    0 ≤ wRunA.theme_valid_rate ∧ wRunA.theme_valid_rate ≤ 1 := by
  have h := evalRun_rates envThrows emptyStore [seedItemG1] [("g1", "g2")]
    (fun _ => "u") "run-1" wStoreA wRunA (by with_unfolding_all rfl)
  exact ⟨h.1, h.2.1, h.2.2.1, h.2.2.2.1⟩

/-- Witness for C7: a concrete unconfigured-index run has a null
recall_at_3 and its pair's case row carries the marker note. -/
theorem evalRun_unconfigured_witness :
    wRunA.recall_at_3 = none ∧
    (wStoreA.evalCases.find? (fun c0 => c0.feedback_id == "g1")).map
        (fun c => (c.recall_hit, c.notes))
      = some (none, some "Vectorize not configured") := by
  have h := evalRun_unconfigured envThrows emptyStore [seedItemG1] [("g1", "g2")]
    (fun _ => "u") "run-1" wStoreA wRunA rfl (by with_unfolding_all rfl)
  refine ⟨h.1, by decide⟩

/-- Witness for C10: the two rates of a completed concrete run agree. -/
theorem evalRun_theme_eq_json_witness :
    wRunA.theme_valid_rate = wRunA.json_valid_rate :=
  (evalRun_theme_eq_json envThrows emptyStore [seedItemG1] [("g1", "g2")]
    (fun _ => "u") "run-1" wStoreA wRunA (by with_unfolding_all rfl)).1

end SignalDesk
